import Mathlib

/-!
Verification development for the Domainosaur domain-valuation engine.

The TypeScript sources are shallowly embedded: pure functions become Lean
functions over `String` / `List Char`, JS numbers become `Int` (integer
scores) or `Rat` (weights, multipliers, prices), and every network / AI
data source becomes an explicit oracle argument.  String primitives
(lower-casing, trimming, splitting, substring tests) are re-implemented
over `List Char` with JS semantics (ASCII case mapping) so that all
definitions reduce in the kernel.  Display-only strings (price formatting,
breakdown descriptions, log messages) are omitted from the embedding.
-/

namespace Domainosaur

/-! ### JS string primitives over `List Char` -/

/-- The ASCII upper-to-lower case table. -/
def LOWER_MAP : List (Char × Char) :=
  [('A','a'), ('B','b'), ('C','c'), ('D','d'), ('E','e'), ('F','f'), ('G','g'),
   ('H','h'), ('I','i'), ('J','j'), ('K','k'), ('L','l'), ('M','m'), ('N','n'),
   ('O','o'), ('P','p'), ('Q','q'), ('R','r'), ('S','s'), ('T','t'), ('U','u'),
   ('V','v'), ('W','w'), ('X','x'), ('Y','y'), ('Z','z')]

/-- ASCII lower-casing of a character, as `String.prototype.toLowerCase`
acts on ASCII input. -/
def lowerChar (c : Char) : Char :=
  match LOWER_MAP.find? (fun p => p.1 == c) with
  | some p => p.2
  | none => c

/-- JS `toLowerCase` on a string (ASCII fragment). -/
def lowerStr (s : String) : String := ⟨s.data.map lowerChar⟩

/-- ASCII whitespace, the fragment of JS `trim` relevant here. -/
def isWhitespaceChar (c : Char) : Bool :=
  c = ' ' || c = '\t' || c = '\n' || c = '\r'

/-- JS `String.prototype.trim` (ASCII fragment). -/
def trimStr (s : String) : String :=
  ⟨(s.data.dropWhile isWhitespaceChar).reverse.dropWhile isWhitespaceChar |>.reverse⟩

/-- JS `split(sep)` for a single-character separator: always returns at
least one (possibly empty) component. -/
def splitOnChar (sep : Char) : List Char → List (List Char)
  | [] => [[]]
  | c :: cs =>
    let r := splitOnChar sep cs
    if c = sep then [] :: r
    else
      match r with
      | [] => [[c]]
      | w :: ws => (c :: w) :: ws

/-- JS `split(/[-_]/)`: split on either `-` or `_`. -/
def splitOnDash : List Char → List (List Char)
  | [] => [[]]
  | c :: cs =>
    let r := splitOnDash cs
    if c = '-' || c = '_' then [] :: r
    else
      match r with
      | [] => [[c]]
      | w :: ws => (c :: w) :: ws

/-- JS `String.prototype.includes` (contiguous substring test). -/
def isSubstring (pat s : List Char) : Bool :=
  match s with
  | [] => pat.isEmpty
  | _ :: tl => pat.isPrefixOf s || isSubstring pat tl

/-- JS `String.prototype.endsWith`. -/
def endsWithStr (s suffixStr : String) : Bool :=
  suffixStr.data.isSuffixOf s.data

/-- JS `String.prototype.startsWith`. -/
def startsWithStr (s prefixStr : String) : Bool :=
  prefixStr.data.isPrefixOf s.data

/-- `parts.join(sep)` for a single-character separator. -/
def joinWith (sep : Char) (parts : List (List Char)) : List Char :=
  List.intercalate [sep] parts

/-- JS regex test `/^[a-z]+$/` (nonempty, all lowercase ASCII letters). -/
def isLowerAlpha (l : List Char) : Bool :=
  !l.isEmpty && l.all (fun c => 'a' ≤ c && c ≤ 'z')

/-- JS regex test `/\d/` (contains a digit). -/
def hasDigit (l : List Char) : Bool := l.any (fun c => '0' ≤ c && c ≤ '9')

/-- `Math.round` on rationals: JS rounds half away from zero upward,
i.e. `round(x) = ⌊x + 1/2⌋`. -/
def jsRound (q : ℚ) : ℤ := ⌊q + 1/2⌋

/-! ### A stable comparator-based sort (JS `Array.prototype.sort`)

JS sorts with a caller comparator and (since ES2019) stably; we model it
as a stable insertion sort parameterized by a Boolean "comes before or
ties" relation. -/

/-- Insert `a` into `l` before the first element `b` with `le a b`. -/
def insertBy (le : α → α → Bool) (a : α) : List α → List α
  | [] => [a]
  | b :: bs => if le a b then a :: b :: bs else b :: insertBy le a bs

/-- Stable insertion sort by a Boolean relation. -/
def sortBy (le : α → α → Bool) : List α → List α
  | [] => []
  | a :: as => insertBy le a (sortBy le as)

theorem mem_insertBy (le : α → α → Bool) (a x : α) (l : List α) :
    x ∈ insertBy le a l → x = a ∨ x ∈ l := by
  induction l with
  | nil => intro h; simp [insertBy] at h; exact Or.inl h
  | cons b bs ih =>
    intro h
    simp only [insertBy] at h
    by_cases hc : le a b
    · simp [hc] at h
      rcases h with h | h | h
      · exact Or.inl h
      · exact Or.inr (by simp [h])
      · exact Or.inr (by simp [h])
    · simp [hc] at h
      rcases h with h | h
      · exact Or.inr (by simp [h])
      · rcases ih h with h1 | h1
        · exact Or.inl h1
        · exact Or.inr (by simp [h1])

theorem mem_sortBy (le : α → α → Bool) (x : α) (l : List α) :
    x ∈ sortBy le l → x ∈ l := by
  induction l with
  | nil => intro h; simp [sortBy] at h
  | cons a as ih =>
    intro h
    simp only [sortBy] at h
    rcases mem_insertBy le a x _ h with h1 | h1
    · simp [h1]
    · exact List.mem_cons_of_mem a (ih h1)

theorem length_insertBy (le : α → α → Bool) (a : α) (l : List α) :
    (insertBy le a l).length = l.length + 1 := by
  induction l with
  | nil => rfl
  | cons b bs ih =>
    simp only [insertBy]
    by_cases hc : le a b
    · simp [hc]
    · simp [hc, ih]

theorem length_sortBy (le : α → α → Bool) (l : List α) :
    (sortBy le l).length = l.length := by
  induction l with
  | nil => rfl
  | cons a as ih => simp [sortBy, length_insertBy, ih]

theorem pairwise_insertBy (le : α → α → Bool)
    (htot : ∀ a b, le a b = true ∨ le b a = true)
    (htrans : ∀ a b c, le a b = true → le b c = true → le a c = true)
    (a : α) (l : List α) (hl : l.Pairwise (fun x y => le x y = true)) :
    (insertBy le a l).Pairwise (fun x y => le x y = true) := by
  induction l with
  | nil => simp [insertBy]
  | cons b bs ih =>
    simp only [insertBy]
    rcases List.pairwise_cons.mp hl with ⟨hb, hbs⟩
    by_cases hc : le a b
    · simp only [hc, if_true]
      refine List.pairwise_cons.mpr ⟨?_, hl⟩
      intro x hx
      rcases List.mem_cons.mp hx with h1 | h1
      · subst h1; exact hc
      · exact htrans a b x hc (hb x h1)
    · simp only [hc, if_false]
      refine List.pairwise_cons.mpr ⟨?_, ih hbs⟩
      intro x hx
      rcases mem_insertBy le a x bs hx with h1 | h1
      · rcases htot a b with h2 | h2
        · exact absurd h2 (by simpa using hc)
        · rw [h1]; exact h2
      · exact hb x h1

theorem pairwise_sortBy (le : α → α → Bool)
    (htot : ∀ a b, le a b = true ∨ le b a = true)
    (htrans : ∀ a b c, le a b = true → le b c = true → le a c = true)
    (l : List α) :
    (sortBy le l).Pairwise (fun x y => le x y = true) := by
  induction l with
  | nil => simp [sortBy]
  | cons a as ih => exact pairwise_insertBy le htot htrans a _ ih

/-! ### `src/lib/tld-utils.ts` -/

namespace TldUtils

/-- The fixed set of known multi-level TLDs (`MULTI_LEVEL_TLDS`). -/
def MULTI_LEVEL_TLDS : List String := [
  "co.uk", "ac.uk", "gov.uk", "net.uk", "org.uk", "me.uk", "ltd.uk", "plc.uk",
  "com.au", "net.au", "org.au", "edu.au", "gov.au", "asn.au", "id.au",
  "co.ca", "gc.ca",
  "co.nz", "net.nz", "org.nz", "ac.nz", "govt.nz", "geek.nz", "gen.nz", "kiwi.nz", "maori.nz", "iwi.nz", "school.nz",
  "co.za", "org.za", "net.za", "ac.za", "gov.za", "law.za", "mil.za", "nom.za", "school.za", "web.za",
  "co.in", "net.in", "org.in", "gen.in", "firm.in", "ind.in",
  "co.jp", "ne.jp", "or.jp", "ac.jp", "ad.jp", "ed.jp", "go.jp", "gr.jp", "lg.jp",
  "com.br", "net.br", "org.br", "gov.br", "edu.br", "mil.br", "art.br", "esp.br", "rec.br", "inf.br",
  "com.ng", "net.ng", "org.ng", "gov.ng", "edu.ng", "mil.ng",
  "co.ke", "ne.ke", "or.ke", "ac.ke", "sc.ke", "go.ke", "me.ke", "mobi.ke", "info.ke",
  "co.il", "net.il", "org.il", "ac.il", "gov.il", "muni.il", "idf.il",
  "co.de", "com.de",
  "co.fr", "com.fr",
  "com.es", "nom.es", "org.es", "gob.es", "edu.es",
  "co.it", "com.it",
  "co.ru", "com.ru", "net.ru", "org.ru", "pp.ru", "msk.ru", "spb.ru",
  "com.cn", "net.cn", "org.cn", "gov.cn", "edu.cn", "mil.cn", "ac.cn", "ah.cn", "bj.cn", "cq.cn", "fj.cn", "gd.cn", "gs.cn", "gz.cn", "gx.cn", "ha.cn", "hb.cn", "he.cn", "hi.cn", "hk.cn", "hl.cn", "hn.cn", "jl.cn", "js.cn", "jx.cn", "ln.cn", "mo.cn", "nm.cn", "nx.cn", "qh.cn", "sc.cn", "sd.cn", "sh.cn", "sn.cn", "sx.cn", "tj.cn", "tw.cn", "xj.cn", "xz.cn", "yn.cn", "zj.cn",
  "com.hk", "net.hk", "org.hk", "gov.hk", "edu.hk", "idv.hk",
  "com.sg", "net.sg", "org.sg", "gov.sg", "edu.sg", "per.sg",
  "com.my", "net.my", "org.my", "gov.my", "edu.my", "mil.my", "name.my",
  "co.th", "ac.th", "go.th", "in.th", "mi.th", "net.th", "or.th",
  "com.ph", "net.ph", "org.ph", "gov.ph", "edu.ph", "mil.ph", "ngo.ph",
  "co.id", "net.id", "org.id", "ac.id", "sch.id", "go.id", "mil.id", "web.id", "war.net.id",
  "com.vn", "net.vn", "org.vn", "edu.vn", "gov.vn", "int.vn", "ac.vn", "biz.vn", "info.vn", "name.vn", "pro.vn", "health.vn",
  "co.kr", "ne.kr", "or.kr", "ac.kr", "go.kr", "mil.kr", "pe.kr", "ra.kr", "sc.kr", "seoul.kr", "kyonggi.kr",
  "com.tw", "net.tw", "org.tw", "idv.tw", "game.tw", "ebiz.tw", "club.tw",
  "com.mx", "net.mx", "org.mx", "gob.mx", "edu.mx",
  "com.ar", "net.ar", "org.ar", "gov.ar", "edu.ar", "mil.ar", "int.ar", "tur.ar",
  "co.cl", "gob.cl", "gov.cl",
  "com.co", "net.co", "org.co", "edu.co", "gov.co", "mil.co", "nom.co", "web.co",
  "com.pe", "net.pe", "org.pe", "edu.pe", "gob.pe", "mil.pe", "nom.pe",
  "co.ve", "com.ve", "net.ve", "org.ve", "gov.ve", "mil.ve", "edu.ve", "int.ve", "tec.ve", "web.ve", "info.ve",
  "com.eg", "net.eg", "org.eg", "edu.eg", "gov.eg", "mil.eg", "sci.eg",
  "com.tr", "net.tr", "org.tr", "edu.tr", "gov.tr", "mil.tr", "gen.tr", "av.tr", "dr.tr", "biz.tr", "info.tr", "name.tr", "web.tr",
  "com.pl", "net.pl", "org.pl", "edu.pl", "gov.pl", "mil.pl", "ngo.pl", "pc.pl", "powiat.pl", "priv.pl", "realestate.pl", "rel.pl", "sex.pl", "shop.pl", "sklep.pl", "sos.pl", "szkola.pl", "targi.pl", "tm.pl", "tourism.pl", "travel.pl", "turystyka.pl",
  "co.cz", "com.cz",
  "co.sk", "com.sk",
  "co.hu", "com.hu",
  "com.ro", "org.ro", "tm.ro", "nt.ro", "nom.ro", "info.ro", "rec.ro", "arts.ro", "firm.ro", "store.ro", "www.ro",
  "com.bg", "org.bg", "net.bg", "edu.bg", "gov.bg", "biz.bg", "info.bg", "name.bg",
  "com.hr", "from.hr", "iz.hr", "name.hr",
  "co.rs", "org.rs", "edu.rs", "ac.rs", "gov.rs", "in.rs",
  "com.ua", "net.ua", "org.ua", "edu.ua", "gov.ua", "in.ua", "ua.ua", "dp.ua", "kharkov.ua", "kherson.ua", "kiev.ua", "kirovograd.ua", "kremenchug.ua", "kr.ua", "lg.ua", "lutsk.ua", "lviv.ua", "mk.ua", "nikolaev.ua", "od.ua", "pl.ua", "poltava.ua", "rovno.ua", "sebastopol.ua", "sumy.ua", "te.ua", "uzhgorod.ua", "vinnica.ua", "zaporizhzhe.ua", "zhitomir.ua", "zp.ua", "zt.ua"]

/-- `extractTLD`: split on `.`; scan suffixes of at most 3 labels (never
the whole string) from longest to shortest for a multi-level TLD; fall
back to the last label; empty result for inputs with fewer than two
split components. -/
def extractTLD (domain : String) : String :=
  let cleanDomain := lowerStr (trimStr domain)
  let parts := splitOnChar '.' cleanDomain.data
  let n := parts.length
  if n < 2 then ""
  else
    let scan := (List.range' (max 1 (n - 3)) (n - 1 - max 1 (n - 3))).findSome?
      (fun i =>
        let possibleTLD : String := ⟨joinWith '.' (parts.drop i)⟩
        if MULTI_LEVEL_TLDS.contains possibleTLD then some possibleTLD else none)
    match scan with
    | some t => t
    | none => ⟨parts.getLastD []⟩

/-- `extractDomainName`: everything before the extracted TLD and its dot
(JS `slice(0, -(tld.length + 1))`). -/
def extractDomainName (domain : String) : String :=
  let cleanDomain := lowerStr (trimStr domain)
  let tld := extractTLD cleanDomain
  if tld = "" then cleanDomain
  else ⟨cleanDomain.data.take (cleanDomain.data.length - (tld.data.length + 1))⟩

/-- `getTLDScore`: quality score of a TLD, with a boost for a matching
caller-supplied target country. -/
def getTLDScore (tld : String) (targetCountry : Option String) : ℤ :=
  let normalizedTLD := lowerStr tld
  if normalizedTLD = "com" then 100
  else if normalizedTLD = "net" || normalizedTLD = "org" then 70
  else if normalizedTLD = "io" || normalizedTLD = "ai" then 65
  else if normalizedTLD = "co" || normalizedTLD = "me" then 60
  else if normalizedTLD = "app" || normalizedTLD = "tech" || normalizedTLD = "dev" then 55
  else if normalizedTLD = "xyz" || normalizedTLD = "info" || normalizedTLD = "biz" then 45
  else if MULTI_LEVEL_TLDS.contains normalizedTLD then
    if normalizedTLD = "co.uk" || normalizedTLD = "com.au" || normalizedTLD = "co.nz" then 85
    else if normalizedTLD = "com.br" || normalizedTLD = "co.za" || normalizedTLD = "co.jp"
        || normalizedTLD = "com.sg" || normalizedTLD = "co.in" then 75
    else if startsWithStr normalizedTLD "com." || startsWithStr normalizedTLD "co." then 65
    else 55
  else if normalizedTLD.data.length = 2 then
    match targetCountry with
    | some c => if c ≠ "" && lowerStr c = normalizedTLD then 75 else 50
    | none => 50
  else 40

end TldUtils

/-! ### TLD-stripping regexes used by `valuation.ts` / `industry-keywords.ts`

`domain.toLowerCase().replace(/\.(alt1|alt2|...)$/, '')`: the regex is
anchored at the end, no alternative contains a dot, hence at most one
alternative can match (as `"." ++ alt` suffix) and the replace removes
that suffix. -/

/-- Strip `"." ++ alt` from the end of `s` for the unique matching
alternative, if any. -/
def stripTldAlts (alts : List String) (s : String) : String :=
  match alts.find? (fun a => endsWithStr s ("." ++ a)) with
  | some a => ⟨s.data.take (s.data.length - (a.data.length + 1))⟩
  | none => s

/-- The short alternation `/\.(com|net|org|io|ai|co|app|xyz|info|biz)$/`
used by `findKeywordValue`, `scoreLiquidity` and `assessLegalRisk`. -/
def SHORT_TLD_ALTS : List String :=
  ["com", "net", "org", "io", "ai", "co", "app", "xyz", "info", "biz"]

/-- The long alternation used by `scoreLengthAndSimplicity` in
`src/lib/valuation.ts` (and `estimateTraffic` in `xai.ts`). -/
def LONG_TLD_ALTS : List String :=
  ["com", "net", "org", "io", "ai", "co", "app", "xyz", "info", "biz", "me",
   "tv", "cc", "ly", "gl", "tech", "online", "store", "blog", "site", "news",
   "pro", "club", "agency", "studio", "digital", "dev", "design", "marketing",
   "services", "solutions", "group", "ventures", "holdings", "capital", "fund",
   "invest", "crypto", "blockchain", "finance", "bank", "pay", "wallet",
   "trade", "exchange", "market", "shop", "buy", "sell", "deal", "sale",
   "cart", "travel", "hotel", "flight", "trip", "vacation", "booking",
   "resort", "learn", "education", "course", "study", "school", "training",
   "food", "restaurant", "delivery", "recipe", "kitchen", "real", "estate",
   "property", "home", "house", "rent", "game", "gaming", "play",
   "entertainment", "fun", "business", "work", "career", "job", "hire",
   "health", "medical", "care", "wellness", "fitness", "doctor", "therapy",
   "clinic", "tech", "software", "cloud", "data", "digital", "smart", "auto",
   "bot", "ai"]

/-! ### `src/data/industry-keywords.ts` -/

namespace Keywords

structure IndustryKeyword where
  keyword : String
  industry : String
  value : ℤ
deriving DecidableEq

/-- The static `industryKeywords` table. -/
def industryKeywords : List IndustryKeyword := [
  IndustryKeyword.mk "crypto" "finance" 95, IndustryKeyword.mk "bitcoin" "finance" 90, IndustryKeyword.mk "finance" "finance" 85,
  IndustryKeyword.mk "bank" "finance" 90, IndustryKeyword.mk "pay" "finance" 80, IndustryKeyword.mk "wallet" "finance" 85,
  IndustryKeyword.mk "loan" "finance" 75, IndustryKeyword.mk "invest" "finance" 80, IndustryKeyword.mk "trade" "finance" 75,
  IndustryKeyword.mk "exchange" "finance" 85,
  IndustryKeyword.mk "ai" "technology" 95, IndustryKeyword.mk "tech" "technology" 80, IndustryKeyword.mk "app" "technology" 75,
  IndustryKeyword.mk "software" "technology" 70, IndustryKeyword.mk "cloud" "technology" 85, IndustryKeyword.mk "data" "technology" 75,
  IndustryKeyword.mk "digital" "technology" 70, IndustryKeyword.mk "smart" "technology" 75, IndustryKeyword.mk "auto" "technology" 70,
  IndustryKeyword.mk "bot" "technology" 65,
  IndustryKeyword.mk "health" "health" 85, IndustryKeyword.mk "medical" "health" 80, IndustryKeyword.mk "care" "health" 75,
  IndustryKeyword.mk "wellness" "health" 70, IndustryKeyword.mk "fitness" "health" 75, IndustryKeyword.mk "doctor" "health" 80,
  IndustryKeyword.mk "therapy" "health" 70, IndustryKeyword.mk "clinic" "health" 75,
  IndustryKeyword.mk "shop" "ecommerce" 80, IndustryKeyword.mk "store" "ecommerce" 75, IndustryKeyword.mk "market" "ecommerce" 80,
  IndustryKeyword.mk "buy" "ecommerce" 70, IndustryKeyword.mk "sell" "ecommerce" 70, IndustryKeyword.mk "deal" "ecommerce" 65,
  IndustryKeyword.mk "sale" "ecommerce" 65, IndustryKeyword.mk "cart" "ecommerce" 60,
  IndustryKeyword.mk "travel" "travel" 85, IndustryKeyword.mk "hotel" "travel" 80, IndustryKeyword.mk "flight" "travel" 75,
  IndustryKeyword.mk "trip" "travel" 70, IndustryKeyword.mk "vacation" "travel" 70, IndustryKeyword.mk "booking" "travel" 75,
  IndustryKeyword.mk "resort" "travel" 70,
  IndustryKeyword.mk "learn" "education" 70, IndustryKeyword.mk "education" "education" 75, IndustryKeyword.mk "course" "education" 65,
  IndustryKeyword.mk "study" "education" 60, IndustryKeyword.mk "school" "education" 70, IndustryKeyword.mk "training" "education" 65,
  IndustryKeyword.mk "food" "food" 70, IndustryKeyword.mk "restaurant" "food" 65, IndustryKeyword.mk "delivery" "food" 70,
  IndustryKeyword.mk "recipe" "food" 60, IndustryKeyword.mk "kitchen" "food" 55,
  IndustryKeyword.mk "real" "realestate" 75, IndustryKeyword.mk "estate" "realestate" 75, IndustryKeyword.mk "property" "realestate" 70,
  IndustryKeyword.mk "home" "realestate" 70, IndustryKeyword.mk "house" "realestate" 65, IndustryKeyword.mk "rent" "realestate" 70,
  IndustryKeyword.mk "game" "gaming" 70, IndustryKeyword.mk "gaming" "gaming" 75, IndustryKeyword.mk "play" "gaming" 60,
  IndustryKeyword.mk "entertainment" "gaming" 65, IndustryKeyword.mk "fun" "gaming" 55,
  IndustryKeyword.mk "business" "business" 75, IndustryKeyword.mk "pro" "business" 65, IndustryKeyword.mk "work" "business" 60,
  IndustryKeyword.mk "career" "business" 65, IndustryKeyword.mk "job" "business" 60, IndustryKeyword.mk "hire" "business" 65,
  IndustryKeyword.mk "best" "generic" 60, IndustryKeyword.mk "top" "generic" 60, IndustryKeyword.mk "premium" "generic" 65,
  IndustryKeyword.mk "elite" "generic" 65, IndustryKeyword.mk "expert" "generic" 60, IndustryKeyword.mk "master" "generic" 60,
  IndustryKeyword.mk "quick" "generic" 55, IndustryKeyword.mk "fast" "generic" 55, IndustryKeyword.mk "easy" "generic" 55,
  IndustryKeyword.mk "simple" "generic" 55]

structure KeywordResult where
  score : ℤ
  industry : String
  matchedKeywords : List String
deriving DecidableEq

/-- One step of the `for (const item of industryKeywords)` accumulation
in `findKeywordValue`: the accumulator is (bestScore, bestIndustry,
matchedKeywords). -/
def keywordStep (domainLower : String) (acc : ℤ × String × List String)
    (item : IndustryKeyword) : ℤ × String × List String :=
  if isSubstring item.keyword.data domainLower.data then
    let matched := acc.2.2 ++ [item.keyword]
    if acc.1 < item.value then (item.value, item.industry, matched)
    else (acc.1, acc.2.1, matched)
  else acc

/-- `findKeywordValue` from `industry-keywords.ts`. -/
def findKeywordValue (domain : String) : KeywordResult :=
  let domainLower := stripTldAlts SHORT_TLD_ALTS (lowerStr domain)
  let acc := industryKeywords.foldl (keywordStep domainLower) (20, "generic", [])
  let exactMatch := industryKeywords.find?
    (fun item => domainLower = item.keyword || domainLower = item.keyword ++ "s")
  let bestScore :=
    match exactMatch with
    | some item => if 80 ≤ item.value then min 100 (acc.1 + 10) else acc.1
    | none => acc.1
  let bestScore := if 3 < acc.2.2.length then max 30 (bestScore - 10) else bestScore
  { score := bestScore, industry := acc.2.1, matchedKeywords := acc.2.2 }

end Keywords

/-! ### Shared data model (`src/types/index.ts`) -/

/-- `ComparableSale` (display-only fields kept as raw strings). -/
structure ComparableSale where
  domain : String
  soldPrice : ℚ
  soldDate : String
  source : String
  similarity : Option ℤ
deriving DecidableEq

inductive LegalFlag | clear | warning | severe
deriving DecidableEq

/-- Result of the legal-risk assessment. -/
structure LegalRisk where
  flag : LegalFlag
  multiplier : ℚ
  score : ℤ
deriving DecidableEq

/-- Outcome of the AI trademark adapter (`analyzeTrademarkRisk`); `none`
models the adapter throwing. -/
structure AiTrademark where
  hasConflict : Bool
  severity : LegalFlag
deriving DecidableEq

/-- `FactorWeights`. -/
structure FactorWeights where
  length : ℚ
  keywords : ℚ
  tld : ℚ
  brandability : ℚ
  industry : ℚ
  comps : ℚ
  age : ℚ
  traffic : ℚ
  liquidity : ℚ
  legal : ℚ
deriving DecidableEq

/-- One `FactorBreakdown` row (the display-only `description` field is
omitted). -/
structure FactorBreakdown where
  factor : String
  score : ℤ
  weight : ℚ
  contribution : ℚ
deriving DecidableEq

/-- WHOIS snapshot used by the valuation engine. -/
structure WhoisData where
  isAvailable : Bool
  ageInYears : Option ℚ
deriving DecidableEq

/-- Evaluation options (the `options` bag of `evaluateDomain`);
`useComps` true models anything other than the explicit `false`. -/
structure EvalOptions where
  userTraffic : Option ℚ
  country : Option String
  useComps : Bool
  domainAge : Option ℚ
  skipWhois : Bool
deriving DecidableEq

/-- The external data consumed by one evaluation: every network / AI /
database access of `evaluateDomain` becomes one oracle field, `none`
modelling the corresponding failure or absent datum. `brandFallbackRaw`
is the pre-clamp output of the local brandability heuristic in `xai.ts`
(its internals are display-level heuristics; only its final clamp to
`[15, 90]` at `xai.ts:444` is semantically relevant here). -/
structure EvalOracles where
  whois : WhoisData
  dbComps : List ComparableSale
  sampleComps : List ComparableSale
  brandAi : Option ℚ
  brandFallbackRaw : ℤ
  fetchedAge : Option ℚ
  aiTraffic : Option ℚ
  aiLegal : Option AiTrademark
deriving DecidableEq

/-- JS truthiness of an optional number (`undefined`, `0` are falsy). -/
def truthyQ : Option ℚ → Bool
  | some x => !(x == 0)
  | none => false

/-- JS `a || b` on optional numbers. -/
def orTruthy (a b : Option ℚ) : Option ℚ :=
  if truthyQ a then a else b

/-- `analyzeBrandability` (`xai.ts`): AI score rounded and clamped to
`[0,100]`; on failure the local heuristic's value clamped to `[15,90]`. -/
def analyzeBrandabilityScore (ai : Option ℚ) (fallbackRaw : ℤ) : ℤ :=
  match ai with
  | some r => max 0 (min 100 (jsRound r))
  | none => max 15 (min 90 fallbackRaw)

/-! ### `src/lib/valuation.ts` (the version at `src/src/lib/valuation.ts`) -/

namespace Valuation

/-- `LEGAL_BRANDS`. -/
def LEGAL_BRANDS : List String :=
  ["google", "facebook", "amazon", "microsoft", "apple", "twitter", "instagram",
   "youtube", "linkedin", "netflix", "tesla", "uber", "airbnb", "spotify",
   "paypal", "visa", "mastercard", "coca-cola", "pepsi", "nike", "adidas",
   "samsung", "sony", "intel", "oracle", "salesforce", "adobe", "zoom",
   "slack", "dropbox", "github", "reddit", "pinterest", "snapchat", "tiktok",
   "whatsapp", "telegram", "discord", "twitch", "shopify", "square", "stripe"]

/-- `ENHANCED_LEGAL_BRANDS` (inside `assessStaticLegalRisk`). -/
def ENHANCED_LEGAL_BRANDS : List String :=
  LEGAL_BRANDS ++
  ["chatgpt", "openai", "anthropic", "claude", "midjourney", "stability",
   "binance", "coinbase", "kraken", "ftx", "ethereum", "polygon",
   "shopify", "etsy", "walmart", "target", "bestbuy", "macys",
   "booking", "expedia", "marriott", "hilton", "hyatt", "airbnb"]

/-- `scoreLengthAndSimplicity`: length tiers minus complexity penalties,
clamped to `≥ 0`. -/
def scoreLengthAndSimplicity (domain : String) : ℤ :=
  let domainName := stripTldAlts LONG_TLD_ALTS (lowerStr domain)
  let length := domainName.data.length
  let wordCount := (splitOnDash domainName.data).length
  let hasHyphen := domainName.data.contains '-'
  let hasNumber := hasDigit domainName.data
  let hasUnderscore := domainName.data.contains '_'
  let score : ℤ :=
    if length ≤ 6 then 100 else if length ≤ 10 then 70
    else if length ≤ 15 then 40 else 20
  let score := if hasHyphen then score - 20 else score
  let score := if hasNumber then score - 10 else score
  let score := if hasUnderscore then score - 15 else score
  let score := if 3 < wordCount then score - 10 else score
  max 0 score

/-- `scoreKeywords` delegates to `findKeywordValue`. -/
def scoreKeywords (domain : String) : Keywords.KeywordResult :=
  Keywords.findKeywordValue domain

/-- The last `.`-separated label of the lower-cased domain
(`domain.toLowerCase().split('.').pop() || ''`). -/
def lastLabel (domain : String) : List Char :=
  (splitOnChar '.' (lowerStr domain).data).getLastD []

/-- `scoreTLD` from `src/src/lib/valuation.ts`: a switch over the final
label only. -/
def scoreTLD (domain : String) (targetCountry : Option String) : ℤ :=
  let tld : String := ⟨lastLabel domain⟩
  if tld = "com" then 100
  else if tld = "net" || tld = "org" then 70
  else if tld = "io" || tld = "ai" then 65
  else if tld = "co" || tld = "me" then 60
  else if tld = "app" || tld = "tech" || tld = "dev" then 55
  else if tld = "xyz" || tld = "info" || tld = "biz" then 45
  else if tld.data.length = 2 then
    match targetCountry with
    | some c => if c ≠ "" && lowerStr c = tld then 75 else 50
    | none => 50
  else 40

/-- `scoreIndustryRelevance`. -/
def scoreIndustryRelevance (industry : String) (keywords : List String) : ℤ :=
  let highValueIndustries : List String :=
    ["finance", "technology", "health", "ecommerce", "travel"]
  let mediumValueIndustries : List String :=
    ["education", "realestate", "business", "gaming"]
  let baseScore : ℤ :=
    if highValueIndustries.contains industry then 85
    else if mediumValueIndustries.contains industry then 60
    else if industry ≠ "generic" then 45
    else 30
  if 2 ≤ keywords.length then min 100 (baseScore + 10) else baseScore

/-- `scoreComparableSales`: tiers over the mean similarity. -/
def scoreComparableSales (comps : List ComparableSale) : ℤ :=
  if comps.isEmpty then 50
  else
    let avgSimilarity : ℚ :=
      ((comps.map (fun c => ((c.similarity.getD 0 : ℤ) : ℚ))).sum) / comps.length
    if 80 ≤ avgSimilarity then 85
    else if 60 ≤ avgSimilarity then 75
    else if 40 ≤ avgSimilarity then 65
    else if 20 ≤ avgSimilarity then 55
    else 50

/-- `calculateAgeScore`. -/
def calculateAgeScore (ageInYears : ℚ) : ℤ :=
  if 15 ≤ ageInYears then 95
  else if 10 ≤ ageInYears then 90
  else if 5 ≤ ageInYears then 70
  else if 2 ≤ ageInYears then 50
  else 25

/-- `scoreDomainAge` (score component): provided age if truthy, else the
fast-path constant, else the WHOIS fetch result or the fallback 25. -/
def scoreDomainAge (provided : Option ℚ) (skipNetwork : Bool)
    (fetched : Option ℚ) : ℤ :=
  if truthyQ provided then calculateAgeScore (provided.getD 0)
  else if skipNetwork then 25
  else
    match fetched with
    | some a => calculateAgeScore a
    | none => 25

/-- `calculateTrafficScore`. -/
def calculateTrafficScore (monthlyTraffic : ℚ) : ℤ :=
  if 1000000 ≤ monthlyTraffic then 95
  else if 100000 ≤ monthlyTraffic then 90
  else if 10000 ≤ monthlyTraffic then 70
  else if 1000 ≤ monthlyTraffic then 50
  else if 100 ≤ monthlyTraffic then 30
  else 20

/-- `estimateDomainTraffic`: the AI estimate, or the conservative 100 on
error (the catch branch). -/
def estimateDomainTraffic (ai : Option ℚ) : ℚ :=
  match ai with
  | some m => m
  | none => 100

/-- `scoreDomainTraffic` (score component). -/
def scoreDomainTraffic (provided ai : Option ℚ) : ℤ :=
  if truthyQ provided ∧ 0 < provided.getD 0 then
    calculateTrafficScore (provided.getD 0)
  else calculateTrafficScore (estimateDomainTraffic ai)

/-- `scoreLiquidity` from `src/src/lib/valuation.ts`. -/
def scoreLiquidity (domain : String) : ℤ :=
  let domainName := stripTldAlts SHORT_TLD_ALTS (lowerStr domain)
  let tld : String := ⟨lastLabel domain⟩
  let length := domainName.data.length
  if tld = "com" ∧ length ≤ 3 ∧ isLowerAlpha domainName.data then 100
  else if tld = "com" ∧ length ≤ 6 ∧ isLowerAlpha domainName.data
      ∧ ¬ domainName.data.contains '-' then 90
  else if tld = "com" ∧ length ≤ 8 ∧ ¬ domainName.data.contains '-'
      ∧ ¬ domainName.data.contains '_' then 80
  else if (tld = "com" ∨ tld = "net" ∨ tld = "org") ∧ length ≤ 12 then 60
  else if length ≤ 10 then 45
  else 25

/-! Word-boundary regex test `new RegExp("\\b" ++ brand ++ "\\b")` used
by `assessStaticLegalRisk` (brands are alphanumeric, so the pattern
matches the brand as a substring delimited by non-word characters or the
string ends). -/

/-- JS `\w` word character: `[A-Za-z0-9_]`. -/
def isWordChar (c : Char) : Bool :=
  ('a' ≤ c && c ≤ 'z') || ('A' ≤ c && c ≤ 'Z') || ('0' ≤ c && c ≤ '9') || c = '_'

/-- A word boundary sits next to `oc` (start/end of string, or a
non-word character). -/
def boundaryOk : Option Char → Bool
  | none => true
  | some c => !isWordChar c

/-- The pattern matches at the current position. -/
def wbHere (brand s : List Char) (prev : Option Char) : Bool :=
  brand.isPrefixOf s && boundaryOk prev && boundaryOk (s.drop brand.length).head?

/-- Scan all positions of `s` for a word-boundary match of `brand`. -/
def wbScan (brand : List Char) (prev : Option Char) : List Char → Bool
  | [] => wbHere brand [] prev
  | c :: rest => wbHere brand (c :: rest) prev || wbScan brand (some c) rest

/-- `wordBoundaryRegex.test(domainName)`. -/
def wordBoundaryTest (brand domainName : String) : Bool :=
  wbScan brand.data none domainName.data

/-- `assessStaticLegalRisk`: exact brand match is severe; brand+suffix
and whole-word (brand length ≥ 5) matches are warnings. -/
def assessStaticLegalRisk (domainName : String) : LegalRisk :=
  if ENHANCED_LEGAL_BRANDS.any (fun brand => domainName = brand) then
    ⟨.severe, 0, 0⟩
  else if ENHANCED_LEGAL_BRANDS.any (fun brand =>
      domainName = brand ++ "s" || domainName = brand ++ "app"
      || domainName = brand ++ "api" || domainName = brand ++ "pro"
      || domainName = brand ++ "hub" || domainName = brand ++ "store") then
    ⟨.warning, 0.7, 40⟩
  else if ENHANCED_LEGAL_BRANDS.any (fun brand =>
      5 ≤ brand.data.length && wordBoundaryTest brand domainName) then
    ⟨.warning, 0.6, 30⟩
  else ⟨.clear, 1.0, 100⟩

/-- `assessLegalRisk`: AI trademark verdict when it reports a conflict,
otherwise (no conflict or adapter failure) the static fallback. -/
def assessLegalRisk (domain : String) (ai : Option AiTrademark) : LegalRisk :=
  let domainName := stripTldAlts SHORT_TLD_ALTS (lowerStr domain)
  match ai with
  | some r =>
    if r.hasConflict then
      ⟨r.severity,
       if r.severity = .severe then 0 else if r.severity = .warning then 0.5 else 1.0,
       if r.severity = .severe then 0 else if r.severity = .warning then 25 else 100⟩
    else assessStaticLegalRisk domainName
  | none => assessStaticLegalRisk domainName

/-- A price bracket. -/
structure PriceBracket where
  bracketMin : ℚ
  bracketMax : ℚ
  bracket : String
deriving DecidableEq

/-- `mapScoreToPriceBracket` from `src/src/lib/valuation.ts`. -/
def mapScoreToPriceBracket (score : ℚ) : PriceBracket :=
  if 80 ≤ score then ⟨5000, 50000, "80-100"⟩
  else if 60 ≤ score then ⟨1000, 5000, "60-80"⟩
  else if 40 ≤ score then ⟨300, 1000, "40-60"⟩
  else if 20 ≤ score then ⟨100, 300, "20-40"⟩
  else ⟨25, 100, "0-20"⟩

/-- Numeric part of a price estimate (the `$`-formatted strings and the
explanation text are display-only). -/
structure PriceEstimate where
  investor : ℚ
  retail : ℚ
deriving DecidableEq

/-- `calculatePriceEstimate`: blend a truthy positive comps median with
the bracket midpoint (60/40), else bracket midpoint / bracket minimum. -/
def calculatePriceEstimate (finalScore : ℚ) (compsMedian : Option ℚ) :
    PriceEstimate :=
  let bracket := mapScoreToPriceBracket finalScore
  let bracketMidpoint := (bracket.bracketMin + bracket.bracketMax) / 2
  if truthyQ compsMedian ∧ 0 < compsMedian.getD 0 then
    let retailPrice : ℚ := jsRound (0.6 * compsMedian.getD 0 + 0.4 * bracketMidpoint)
    ⟨jsRound (retailPrice * 0.6), retailPrice⟩
  else ⟨bracket.bracketMin, bracketMidpoint⟩

/-! The `evaluateDomain` orchestration, split into named pure pieces. -/

/-- The WHOIS data used: a fixed optimistic snapshot in fast mode, the
adapter result otherwise. -/
def whoisDataOf (opts : EvalOptions) (o : EvalOracles) : WhoisData :=
  if opts.skipWhois then ⟨true, some 0⟩ else o.whois

/-- The comparables used: database results, falling back to sample data
when empty, or none at all when `useComps` is `false`. -/
def comparablesOf (opts : EvalOptions) (o : EvalOracles) : List ComparableSale :=
  if opts.useComps then
    if o.dbComps.isEmpty then o.sampleComps else o.dbComps
  else []

/-- `availabilityMultiplier`. -/
def availabilityMultiplier (opts : EvalOptions) (o : EvalOracles) : ℚ :=
  if opts.skipWhois then 0.8
  else if (whoisDataOf opts o).isAvailable then 1.0 else 0.6

/-- The availability row's displayed score. -/
def availabilityScore (opts : EvalOptions) (o : EvalOracles) : ℤ :=
  if opts.skipWhois then 80
  else if (whoisDataOf opts o).isAvailable then 100 else 60

/-- The `breakdown` list of `evaluateDomain`, in source order. -/
def breakdown (domain : String) (opts : EvalOptions) (w : FactorWeights)
    (o : EvalOracles) : List FactorBreakdown :=
  let lengthScore := scoreLengthAndSimplicity domain
  let keywordResult := scoreKeywords domain
  let tldScore := scoreTLD domain opts.country
  let industryScore :=
    scoreIndustryRelevance keywordResult.industry keywordResult.matchedKeywords
  let comparables := comparablesOf opts o
  let compsScore := scoreComparableSales comparables
  let ageScore := scoreDomainAge
    (orTruthy (whoisDataOf opts o).ageInYears opts.domainAge) opts.skipWhois o.fetchedAge
  let trafficScore := scoreDomainTraffic opts.userTraffic o.aiTraffic
  let liquidityScore := scoreLiquidity domain
  let brandabilityScore := analyzeBrandabilityScore o.brandAi o.brandFallbackRaw
  let legalRisk := assessLegalRisk domain o.aiLegal
  [⟨"length", lengthScore, w.length, w.length * lengthScore⟩,
   ⟨"keywords", keywordResult.score, w.keywords, w.keywords * keywordResult.score⟩,
   ⟨"tld", tldScore, w.tld, w.tld * tldScore⟩,
   ⟨"brandability", brandabilityScore, w.brandability, w.brandability * brandabilityScore⟩,
   ⟨"industry", industryScore, w.industry, w.industry * industryScore⟩,
   ⟨"comps", compsScore, w.comps, w.comps * compsScore⟩,
   ⟨"age", ageScore, w.age, w.age * ageScore⟩,
   ⟨"traffic", trafficScore, w.traffic, w.traffic * trafficScore⟩,
   ⟨"liquidity", liquidityScore, w.liquidity, w.liquidity * liquidityScore⟩,
   ⟨"legal", legalRisk.score, 0, 0⟩,
   ⟨"availability", availabilityScore opts o, 0, 0⟩]

/-- `rawScore`: sum of the breakdown contributions. -/
def rawScore (domain : String) (opts : EvalOptions) (w : FactorWeights)
    (o : EvalOracles) : ℚ :=
  ((breakdown domain opts w o).map (fun f => f.contribution)).sum

/-- `finalScore` of `src/src/lib/valuation.ts`: raw weighted score times
the legal and availability multipliers. -/
def finalScore (domain : String) (opts : EvalOptions) (w : FactorWeights)
    (o : EvalOracles) : ℚ :=
  rawScore domain opts w o * (assessLegalRisk domain o.aiLegal).multiplier
    * availabilityMultiplier opts o

/-- The comps median of `evaluateDomain`: element at index `⌊n/2⌋` of the
comparables sorted ascending by sold price. -/
def compsMedian (comparables : List ComparableSale) : Option ℚ :=
  if 0 < comparables.length then
    some ((sortBy (fun a b : ComparableSale => a.soldPrice ≤ b.soldPrice)
      comparables).getD (comparables.length / 2) ⟨"", 0, "", "", none⟩).soldPrice
  else none

/-- The price estimate produced by `evaluateDomain`. -/
def priceEstimateOf (domain : String) (opts : EvalOptions) (w : FactorWeights)
    (o : EvalOracles) : PriceEstimate :=
  calculatePriceEstimate (finalScore domain opts w o)
    (compsMedian (comparablesOf opts o))

end Valuation

/-- `DEFAULT_WEIGHTS` (identical in both valuation revisions). -/
def DEFAULT_WEIGHTS : FactorWeights :=
  ⟨0.12, 0.20, 0.15, 0.15, 0.10, 0.12, 0.06, 0.04, 0.06, 0.0⟩

/-! ### The premium-multiplier valuation revision (`src/unnamed/part_004`)

This revision replaces the length/TLD/liquidity scorers with
classifier-based ones, re-weights premium short domains, and applies a
premium multiplier to the final score.  The keyword, industry, comps,
age, traffic and legal logic is unchanged and shared with `Valuation`. -/

namespace ValuationPremium

open TldUtils

/-- `scoreLengthAndSimplicity` of the premium revision: steep tier curve
on the classifier-extracted name, with softened digit penalty on very
short names. -/
def scoreLengthAndSimplicity (domain : String) : ℤ :=
  let domainName := extractDomainName domain
  let length := domainName.data.length
  let wordCount := (splitOnDash domainName.data).length
  let hasHyphen := domainName.data.contains '-'
  let hasNumber := hasDigit domainName.data
  let hasUnderscore := domainName.data.contains '_'
  let score : ℤ :=
    if length = 1 then 100 else if length = 2 then 100
    else if length = 3 then 100 else if length = 4 then 95
    else if length = 5 then 85 else if length = 6 then 75
    else if length = 7 then 65 else if length = 8 then 55
    else if length ≤ 10 then 45 else if length ≤ 12 then 35
    else if length ≤ 15 then 25 else 15
  let score := if hasHyphen then score - 20 else score
  let score := if hasNumber then (if length ≤ 4 then score - 5 else score - 10) else score
  let score := if hasUnderscore then score - 15 else score
  let score := if 3 < wordCount then score - 10 else score
  max 0 score

/-- `scoreTLD` of the premium revision delegates to the classifier. -/
def scoreTLD (domain : String) (targetCountry : Option String) : ℤ :=
  getTLDScore (extractTLD domain) targetCountry

/-- `scoreLiquidity` of the premium revision. -/
def scoreLiquidity (domain : String) : ℤ :=
  let domainName := extractDomainName domain
  let tld := extractTLD domain
  let length := domainName.data.length
  let alpha := isLowerAlpha domainName.data
  if tld = "com" ∧ length ≤ 2 ∧ alpha then 100
  else if tld = "com" ∧ length = 3 ∧ alpha then 100
  else if tld = "com" ∧ length = 4 ∧ alpha then 95
  else if tld = "com" ∧ length = 5 ∧ alpha ∧ ¬ domainName.data.contains '-' then 90
  else if tld = "com" ∧ length ≤ 6 ∧ alpha ∧ ¬ domainName.data.contains '-' then 85
  else if (tld = "net" ∨ tld = "org") ∧ length ≤ 3 ∧ alpha then 95
  else if (tld = "net" ∨ tld = "org") ∧ length = 4 ∧ alpha then 85
  else if (tld = "io" ∨ tld = "ai") ∧ length ≤ 3 ∧ alpha then 90
  else if (tld = "io" ∨ tld = "ai") ∧ length = 4 ∧ alpha then 80
  else if (tld = "co.uk" ∨ tld = "com.au" ∨ tld = "co.nz") ∧ length ≤ 4 ∧ alpha then 85
  else if (tld = "co.uk" ∨ tld = "com.au" ∨ tld = "co.nz") ∧ length = 5 ∧ alpha then 75
  else
    let baseScore : ℤ :=
      if tld = "com" then
        if length ≤ 8 then 75 else if length ≤ 12 then 65 else 55
      else if tld = "net" ∨ tld = "org" then
        if length ≤ 8 then 65 else if length ≤ 12 then 55 else 45
      else if tld = "io" ∨ tld = "ai" ∨ tld = "co" then
        if length ≤ 8 then 60 else if length ≤ 12 then 50 else 40
      else
        if length ≤ 8 then 50 else if length ≤ 12 then 40 else 30
    let baseScore := if domainName.data.contains '-' then baseScore - 15 else baseScore
    let baseScore :=
      if hasDigit domainName.data then (if length ≤ 4 then baseScore - 5 else baseScore - 10)
      else baseScore
    max 20 baseScore

/-- `isPremiumShortDomain`. -/
def isPremiumShortDomain (domain : String) : Bool :=
  let domainName := extractDomainName domain
  let tld := extractTLD domain
  (tld = "com" ∧ domainName.data.length ≤ 4)
  ∨ ((tld = "net" ∨ tld = "org") ∧ domainName.data.length ≤ 3)
  ∨ ((tld = "io" ∨ tld = "ai") ∧ domainName.data.length ≤ 3)

/-- `adjustedWeights`: fixed premium-short weight table, else the given
weights. -/
def adjustedWeights (domain : String) (w : FactorWeights) : FactorWeights :=
  if isPremiumShortDomain domain then
    ⟨0.25, 0.15, 0.20, 0.15, 0.05, 0.10, 0.03, 0.02, 0.15, 0.0⟩
  else w

/-- `premiumMultiplier` (`evaluateDomain`, part_004 lines 634-644): 30%
bonus for an all-letter 3-character `.com` name, 15% for 4 characters,
no bonus otherwise. -/
def premiumMultiplier (domain : String) : ℚ :=
  let domainName := extractDomainName domain
  let tld := extractTLD domain
  if tld = "com" ∧ domainName.data.length = 3 ∧ isLowerAlpha domainName.data then 1.3
  else if tld = "com" ∧ domainName.data.length = 4 ∧ isLowerAlpha domainName.data then 1.15
  else 1.0

/-- The `breakdown` list of the premium revision's `evaluateDomain`. -/
def breakdown (domain : String) (opts : EvalOptions) (w : FactorWeights)
    (o : EvalOracles) : List FactorBreakdown :=
  let aw := adjustedWeights domain w
  let lengthScore := scoreLengthAndSimplicity domain
  let keywordResult := Keywords.findKeywordValue domain
  let tldScore := scoreTLD domain opts.country
  let industryScore :=
    Valuation.scoreIndustryRelevance keywordResult.industry keywordResult.matchedKeywords
  let comparables := Valuation.comparablesOf opts o
  let compsScore := Valuation.scoreComparableSales comparables
  let ageScore := Valuation.scoreDomainAge
    (orTruthy (Valuation.whoisDataOf opts o).ageInYears opts.domainAge)
    opts.skipWhois o.fetchedAge
  let trafficScore := Valuation.scoreDomainTraffic opts.userTraffic o.aiTraffic
  let liquidityScore := scoreLiquidity domain
  let brandabilityScore := analyzeBrandabilityScore o.brandAi o.brandFallbackRaw
  let legalRisk := Valuation.assessLegalRisk domain o.aiLegal
  [⟨"length", lengthScore, aw.length, aw.length * lengthScore⟩,
   ⟨"keywords", keywordResult.score, aw.keywords, aw.keywords * keywordResult.score⟩,
   ⟨"tld", tldScore, aw.tld, aw.tld * tldScore⟩,
   ⟨"brandability", brandabilityScore, aw.brandability, aw.brandability * brandabilityScore⟩,
   ⟨"industry", industryScore, aw.industry, aw.industry * industryScore⟩,
   ⟨"comps", compsScore, aw.comps, aw.comps * compsScore⟩,
   ⟨"age", ageScore, aw.age, aw.age * ageScore⟩,
   ⟨"traffic", trafficScore, aw.traffic, aw.traffic * trafficScore⟩,
   ⟨"liquidity", liquidityScore, aw.liquidity, aw.liquidity * liquidityScore⟩,
   ⟨"legal", legalRisk.score, 0, 0⟩,
   ⟨"availability", Valuation.availabilityScore opts o, 0, 0⟩]

/-- `rawScore` of the premium revision. -/
def rawScore (domain : String) (opts : EvalOptions) (w : FactorWeights)
    (o : EvalOracles) : ℚ :=
  ((breakdown domain opts w o).map (fun f => f.contribution)).sum

/-- `finalScore` of the premium revision: raw weighted score times the
legal, availability and premium multipliers. -/
def finalScore (domain : String) (opts : EvalOptions) (w : FactorWeights)
    (o : EvalOracles) : ℚ :=
  rawScore domain opts w o * (Valuation.assessLegalRisk domain o.aiLegal).multiplier
    * Valuation.availabilityMultiplier opts o * premiumMultiplier domain

end ValuationPremium

/-! ### `src/lib/database-comps.ts` -/

namespace DbComps

open TldUtils

structure SimilarityFactors where
  lengthWeight : ℚ
  tldWeight : ℚ
  keywordWeight : ℚ
  priceRangeWeight : ℚ
deriving DecidableEq

def DEFAULT_SIMILARITY_WEIGHTS : SimilarityFactors := ⟨0.3, 0.25, 0.3, 0.15⟩

structure DomainInfo where
  domainName : String
  tld : String
  domainLength : ℕ
  hasHyphens : Bool
  hasNumbers : Bool
deriving DecidableEq

/-- `extractDomainInfo`. -/
def extractDomainInfo (domain : String) : Option DomainInfo :=
  let lowerDomain := lowerStr (trimStr domain)
  if ¬ lowerDomain.data.contains '.' then none
  else
    let tld := extractTLD lowerDomain
    let domainName := extractDomainName lowerDomain
    if tld = "" ∨ domainName = "" then none
    else some ⟨domainName, tld, domainName.data.length,
      domainName.data.contains '-', hasDigit domainName.data⟩

/-- Maximal runs of `[a-z]` characters (`part.match(/[a-z]+/g)`). -/
def alphaRuns : List Char → List (List Char)
  | [] => []
  | c :: cs =>
    let rest := alphaRuns cs
    if 'a' ≤ c ∧ c ≤ 'z' then
      match cs with
      | [] => [[c]]
      | d :: _ =>
        if 'a' ≤ d ∧ d ≤ 'z' then (c :: rest.headD []) :: rest.tail
        else [c] :: rest
    else rest

/-- `extractWords`: split on `-`/`_`, take alphabetic runs, keep words of
length ≥ 2. -/
def extractWords (domain : String) : List (List Char) :=
  ((splitOnDash (lowerStr domain).data).flatMap alphaRuns).filter
    (fun wrd => 2 ≤ wrd.length)

/-- The shared-industry keyword list inside `calculateKeywordSimilarity`. -/
def SIM_INDUSTRY_KEYWORDS : List String :=
  ["shop", "buy", "sell", "tech", "app", "web", "net", "online", "digital"]

/-- `calculateKeywordSimilarity`: exact match, else Jaccard similarity of
word sets scaled to 60 plus prefix and industry bonuses, capped at 100. -/
def calculateKeywordSimilarity (target candidate : String) : ℚ :=
  if target = candidate then 100
  else
    let targetWords := extractWords target
    let candidateWords := extractWords candidate
    if targetWords.isEmpty ∨ candidateWords.isEmpty then 20
    else
      let targetSet := targetWords.dedup
      let candidateSet := candidateWords.dedup
      let inter := targetSet.filter (fun x => candidateSet.contains x)
      let union := (targetSet ++ candidateSet).dedup
      let jaccardSimilarity : ℚ := (inter.length : ℚ) / (union.length : ℚ)
      let patternBonus : ℚ :=
        if startsWithStr target ⟨candidate.data.take 3⟩
          || startsWithStr candidate ⟨target.data.take 3⟩ then 20 else 0
      let patternBonus := patternBonus +
        (if SIM_INDUSTRY_KEYWORDS.any (fun kw => isSubstring kw.data target.data)
          && SIM_INDUSTRY_KEYWORDS.any (fun kw => isSubstring kw.data candidate.data)
         then 15 else 0)
      min 100 (jaccardSimilarity * 60 + patternBonus)

/-- `calculateStructureSimilarity`. -/
def calculateStructureSimilarity (target candidate : DomainInfo) : ℤ :=
  let score : ℤ := 100
  let score := if target.hasHyphens ≠ candidate.hasHyphens then score - 30 else score
  let score := if target.hasNumbers ≠ candidate.hasNumbers then score - 20 else score
  max 0 score

/-- `calculateSimilarity`: weighted sum of the four sub-scores, clamped
to `[0, 100]`. -/
def calculateSimilarity (target candidate : DomainInfo)
    (w : SimilarityFactors) : ℚ :=
  let lengthDiff : ℤ := |(target.domainLength : ℤ) - (candidate.domainLength : ℤ)|
  let lengthSimilarity : ℤ := max 0 (100 - lengthDiff * 10)
  let tldSimilarity : ℤ :=
    if target.tld = candidate.tld then 100
    else if target.tld = "com" ∨ candidate.tld = "com" then 60
    else 40
  let keywordSimilarity := calculateKeywordSimilarity target.domainName candidate.domainName
  let structureSimilarity := calculateStructureSimilarity target candidate
  let similarityScore : ℚ :=
    (lengthSimilarity : ℚ) * w.lengthWeight + (tldSimilarity : ℚ) * w.tldWeight
      + keywordSimilarity * w.keywordWeight + (structureSimilarity : ℚ) * w.priceRangeWeight
  min 100 (max 0 similarityScore)

/-- One row of the `domain_sales` query result (the candidate pool). -/
structure SaleRow where
  domain : String
  price : ℚ
  date : String
  venue : String
deriving DecidableEq

/-- The pure core of `findDatabaseComparables`: score each candidate,
keep those with rounded similarity ≥ 40, sort descending by similarity,
truncate to the requested count. The candidate pool (the pre-filtered
database query result) is an explicit argument. -/
def findDatabaseComparables (targetDomain : String) (lim : ℕ)
    (w : SimilarityFactors) (candidates : List SaleRow) : List ComparableSale :=
  match extractDomainInfo targetDomain with
  | none => []
  | some targetInfo =>
    let comparables := candidates.filterMap (fun row =>
      match extractDomainInfo row.domain with
      | none => none
      | some candidateInfo =>
        let similarity := jsRound (calculateSimilarity targetInfo candidateInfo w)
        if 40 ≤ similarity then
          some (ComparableSale.mk row.domain row.price row.date
            ("Database (" ++ row.venue ++ ")") (some similarity))
        else none)
    (sortBy (fun a b => decide (b.similarity.getD 0 ≤ a.similarity.getD 0))
      comparables).take lim

end DbComps

/-! ### `src/lib/rate-limiter.ts` (the `src/unnamed/part_011` revision)

The revision of the rate limiter cited by the spec reads the ceiling and
window from environment configuration (defaults 3 and 3600 s); they are
modelled as parameters.  The module-level `rateLimitMap` is threaded
explicitly, and the probabilistic `Math.random() < 0.01` cleanup draw is
an explicit Boolean input.  The `userAgent` / `sessionId` parameters and
the `lastUserAgent` entry field mirror the source, which accepts but
never consults them. -/

namespace RateLimiter

structure RateLimitEntry where
  count : ℕ
  resetTime : ℕ
  lastUserAgent : Option String
deriving DecidableEq

/-- The module-level `rateLimitMap`, as an insertion-ordered association
list. -/
abbrev RateLimitMap := List (String × RateLimitEntry)

def mapGet (m : RateLimitMap) (k : String) : Option RateLimitEntry :=
  (m.find? (fun p => p.1 == k)).map (fun p => p.2)

/-- JS `Map.prototype.set`: update in place or append. -/
def mapSet (m : RateLimitMap) (k : String) (v : RateLimitEntry) : RateLimitMap :=
  if (m.find? (fun p => p.1 == k)).isSome then
    m.map (fun p => if p.1 == k then (k, v) else p)
  else m ++ [(k, v)]

structure RateLimitResult where
  allowed : Bool
  remaining : ℤ
  resetTime : ℕ
deriving DecidableEq

/-- `checkRateLimit`: read the caller's entry, optionally clean up
expired entries, then allow/refresh/reject by count and window. -/
def checkRateLimit (RATE_LIMIT WINDOW_MS : ℕ) (doCleanup : Bool)
    (m : RateLimitMap) (now : ℕ) (ip : String)
    (userAgent sessionId : Option String) : RateLimitResult × RateLimitMap :=
  let entry := mapGet m ip
  let m2 := if doCleanup then m.filter (fun p => !decide (p.2.resetTime < now)) else m
  match entry with
  | none =>
    (⟨true, (RATE_LIMIT : ℤ) - 1, now + WINDOW_MS⟩,
     mapSet m2 ip ⟨1, now + WINDOW_MS, none⟩)
  | some e =>
    if e.resetTime < now then
      (⟨true, (RATE_LIMIT : ℤ) - 1, now + WINDOW_MS⟩,
       mapSet m2 ip ⟨1, now + WINDOW_MS, none⟩)
    else if RATE_LIMIT ≤ e.count then
      (⟨false, 0, e.resetTime⟩, m2)
    else
      (⟨true, (RATE_LIMIT : ℤ) - (e.count + 1), e.resetTime⟩,
       mapSet m2 ip ⟨e.count + 1, e.resetTime, e.lastUserAgent⟩)

end RateLimiter

/-! ## Claim theorems -/

open TldUtils RateLimiter

/-- C10: the rate limiter's decision is independent of the `userAgent`
and `sessionId` arguments — two calls with the same ip, map state,
cleanup draw and current time but different `userAgent` / `sessionId`
return the same `{allowed, remaining, resetTime}` and the same resulting
map state. -/
theorem checkRateLimit_independent_of_userAgent_sessionId
    (L W : ℕ) (b : Bool) (m : RateLimitMap) (now : ℕ) (ip : String)
    (ua1 ua2 sid1 sid2 : Option String) :
    checkRateLimit L W b m now ip ua1 sid1 = checkRateLimit L W b m now ip ua2 sid2 :=
  rfl

/-- Fresh entry on an empty map. -/
theorem rl_step_fresh (L W : ℕ) (b : Bool) (now : ℕ) (ip : String)
    (ua sid : Option String) :
    checkRateLimit L W b [] now ip ua sid
      = (⟨true, (L : ℤ) - 1, now + W⟩, [(ip, ⟨1, now + W, none⟩)]) := by
  cases b <;> simp [checkRateLimit, mapGet, mapSet, List.filter]

/-- Increment inside a live window below the ceiling. -/
theorem rl_step_incr (L W : ℕ) (b : Bool) (now : ℕ) (ip : String)
    (ua sid : Option String) (c R : ℕ) (hR : ¬ (R < now)) (hc : c < L) :
    checkRateLimit L W b [(ip, ⟨c, R, none⟩)] now ip ua sid
      = (⟨true, (L : ℤ) - (c + 1), R⟩, [(ip, ⟨c + 1, R, none⟩)]) := by
  cases b <;> simp [checkRateLimit, mapGet, mapSet, List.filter, hR, Nat.not_le.mpr hc]

/-- Rejection at the ceiling inside a live window. -/
theorem rl_step_reject (L W : ℕ) (b : Bool) (now : ℕ) (ip : String)
    (ua sid : Option String) (c R : ℕ) (hR : ¬ (R < now)) (hc : L ≤ c) :
    checkRateLimit L W b [(ip, ⟨c, R, none⟩)] now ip ua sid
      = (⟨false, 0, R⟩, [(ip, ⟨c, R, none⟩)]) := by
  cases b <;> simp [checkRateLimit, mapGet, mapSet, List.filter, hR, hc]

/-- Reset after the window has passed. -/
theorem rl_step_reset (L W : ℕ) (b : Bool) (now : ℕ) (ip : String)
    (ua sid : Option String) (c R : ℕ) (hR : R < now) :
    checkRateLimit L W b [(ip, ⟨c, R, none⟩)] now ip ua sid
      = (⟨true, (L : ℤ) - 1, now + W⟩, [(ip, ⟨1, now + W, none⟩)]) := by
  cases b <;> simp [checkRateLimit, mapGet, mapSet, List.filter, hR]

/-- A sequence of `checkRateLimit` calls for one ip, threading the map:
each list entry is (cleanup draw, time, userAgent, sessionId); returns
the final map and the per-call results in order. -/
def rlCalls (L W : ℕ) (ip : String) (m : RateLimitMap) :
    List (Bool × ℕ × Option String × Option String)
    → RateLimitMap × List RateLimitResult
  | [] => (m, [])
  | (b, t, ua, sid) :: rest =>
    let r := checkRateLimit L W b m t ip ua sid
    let k := rlCalls L W ip r.2 rest
    (k.1, r.1 :: k.2)

/-- C8: with ceiling 3 and a 1-hour (3600000 ms) window, starting from
the empty map: three calls within the window are allowed (remaining 2,
1, 0), the 4th is rejected with `remaining = 0` and the unchanged reset
time, and a call after the reset time passes is allowed again with the
counter reset to 1 (`remaining = ceiling - 1`, new reset time). -/
theorem checkRateLimit_window_scenario
    (t1 t2 t3 t4 t5 : ℕ) (b1 b2 b3 b4 b5 : Bool) (ip : String)
    (ua1 ua2 ua3 ua4 ua5 sid1 sid2 sid3 sid4 sid5 : Option String)
    (h12 : t1 ≤ t2) (h23 : t2 ≤ t3) (h34 : t3 ≤ t4)
    (h4w : t4 ≤ t1 + 3600000) (h5w : t1 + 3600000 < t5) :
    rlCalls 3 3600000 ip []
      [(b1, t1, ua1, sid1), (b2, t2, ua2, sid2), (b3, t3, ua3, sid3),
       (b4, t4, ua4, sid4), (b5, t5, ua5, sid5)]
      = ([(ip, ⟨1, t5 + 3600000, none⟩)],
         [⟨true, 2, t1 + 3600000⟩, ⟨true, 1, t1 + 3600000⟩,
          ⟨true, 0, t1 + 3600000⟩, ⟨false, 0, t1 + 3600000⟩,
          ⟨true, 2, t5 + 3600000⟩]) := by
  have e1 := rl_step_fresh 3 3600000 b1 t1 ip ua1 sid1
  have e2 := rl_step_incr 3 3600000 b2 t2 ip ua2 sid2 1 (t1 + 3600000)
    (by omega) (by omega)
  have e3 := rl_step_incr 3 3600000 b3 t3 ip ua3 sid3 2 (t1 + 3600000)
    (by omega) (by omega)
  have e4 := rl_step_reject 3 3600000 b4 t4 ip ua4 sid4 3 (t1 + 3600000)
    (by omega) (by omega)
  have e5 := rl_step_reset 3 3600000 b5 t5 ip ua5 sid5 3 (t1 + 3600000) (by omega)
  norm_num only [rlCalls, e1, e2, e3, e4, e5]

/-- C8 witness: the scenario at concrete times 0, 10, 20, 30 within the
window and 4000000 after it. -/
theorem checkRateLimit_window_scenario_witness :
    rlCalls 3 3600000 "ip" []
      [(false, 0, none, none), (false, 10, none, none), (false, 20, none, none),
       (false, 30, none, none), (false, 4000000, none, none)]
      = ([("ip", ⟨1, 7600000, none⟩)],
         [⟨true, 2, 3600000⟩, ⟨true, 1, 3600000⟩, ⟨true, 0, 3600000⟩,
          ⟨false, 0, 3600000⟩, ⟨true, 2, 7600000⟩]) :=
  checkRateLimit_window_scenario 0 10 20 30 4000000 false false false false false
    "ip" none none none none none none none none none none
    (by decide) (by decide) (by decide) (by decide) (by decide)

/-- A severe static assessment always carries multiplier 0. -/
theorem assessStaticLegalRisk_severe_multiplier (name : String)
    (h : (Valuation.assessStaticLegalRisk name).flag = .severe) :
    (Valuation.assessStaticLegalRisk name).multiplier = 0 := by
  unfold Valuation.assessStaticLegalRisk at h ⊢
  split_ifs at h ⊢ <;> simp_all

/-- A severe legal assessment always carries multiplier 0. -/
theorem assessLegalRisk_severe_multiplier (d : String) (ai : Option AiTrademark)
    (h : (Valuation.assessLegalRisk d ai).flag = .severe) :
    (Valuation.assessLegalRisk d ai).multiplier = 0 := by
  unfold Valuation.assessLegalRisk at h ⊢
  cases ai with
  | none => exact assessStaticLegalRisk_severe_multiplier _ h
  | some r =>
    by_cases hc : r.hasConflict
    · simp only [hc, if_true] at h ⊢
      simp only [h] at *
      simp
    · simp only [hc, if_false] at h ⊢
      exact assessStaticLegalRisk_severe_multiplier _ h

/-- C2: whenever the legal-risk assessment is `severe` (for instance the
name exactly equals a listed brand), the legal multiplier is 0 and the
final score of either valuation revision is exactly 0, for all other
factor values, weights and the availability multiplier. -/
theorem severe_legal_flag_forces_zero_finalScore (domain : String)
    (o : EvalOracles)
    (h : (Valuation.assessLegalRisk domain o.aiLegal).flag = .severe) :
    (Valuation.assessLegalRisk domain o.aiLegal).multiplier = 0
    ∧ (∀ opts w, Valuation.finalScore domain opts w o = 0)
    ∧ (∀ opts w, ValuationPremium.finalScore domain opts w o = 0) := by
  have hm := assessLegalRisk_severe_multiplier domain o.aiLegal h
  refine ⟨hm, fun opts w => ?_, fun opts w => ?_⟩
  · simp [Valuation.finalScore, hm]
  · simp [ValuationPremium.finalScore, hm]

/-- C2 witness: `google.com` with the AI trademark adapter failing hits
the static brand list exactly and scores 0. -/
theorem severe_legal_flag_forces_zero_finalScore_witness :
    (Valuation.assessLegalRisk "google.com" none).flag = .severe
    ∧ (Valuation.assessLegalRisk "google.com" none).multiplier = 0
    ∧ Valuation.finalScore "google.com" ⟨none, none, true, none, false⟩
        DEFAULT_WEIGHTS ⟨⟨true, none⟩, [], [], none, 0, none, none, none⟩ = 0 :=
  ⟨by decide,
   (severe_legal_flag_forces_zero_finalScore "google.com"
     ⟨⟨true, none⟩, [], [], none, 0, none, none, none⟩ (by decide)).1,
   (severe_legal_flag_forces_zero_finalScore "google.com"
     ⟨⟨true, none⟩, [], [], none, 0, none, none, none⟩ (by decide)).2.1
     ⟨none, none, true, none, false⟩ DEFAULT_WEIGHTS⟩

/-! C9: the keyword score. -/

/-- C9's claim as stated (for comparison with `Keywords.findKeywordValue`
from the source): highest matching keyword value (default 20), then a
+10 bonus capped at 100 whenever the stripped name exactly equals a
keyword or its plural, then the more-than-3-matches penalty with floor
30. -/
def claimedKeywordScore (domain : String) : ℤ :=
  let domainLower := stripTldAlts SHORT_TLD_ALTS (lowerStr domain)
  let matched := Keywords.industryKeywords.filter
    (fun it => isSubstring it.keyword.data domainLower.data)
  let base := ((matched.map (fun it => it.value)).foldl max 20)
  let b :=
    if (Keywords.industryKeywords.find?
        (fun it => domainLower = it.keyword || domainLower = it.keyword ++ "s")).isSome
    then min 100 (base + 10) else base
  if 3 < matched.length then max 30 (b - 10) else b

/-- The amended C9 score: as claimed, except that the exact-match bonus
applies only when the matched keyword's table value is at least 80. -/
def amendedKeywordScore (domain : String) : ℤ :=
  let domainLower := stripTldAlts SHORT_TLD_ALTS (lowerStr domain)
  let matched := Keywords.industryKeywords.filter
    (fun it => isSubstring it.keyword.data domainLower.data)
  let base := ((matched.map (fun it => it.value)).foldl max 20)
  let b :=
    match Keywords.industryKeywords.find?
        (fun it => domainLower = it.keyword || domainLower = it.keyword ++ "s") with
    | some it => if 80 ≤ it.value then min 100 (base + 10) else base
    | none => base
  if 3 < matched.length then max 30 (b - 10) else b

/-- The matched-keyword list accumulated by `findKeywordValue` is the
filter of the table by substring match. -/
theorem keywordFold_matched (dl : String) (l : List Keywords.IndustryKeyword)
    (acc : ℤ × String × List String) :
    (l.foldl (Keywords.keywordStep dl) acc).2.2
      = acc.2.2 ++ (l.filter
          (fun it => isSubstring it.keyword.data dl.data)).map (fun it => it.keyword) := by
  induction l generalizing acc with
  | nil => simp
  | cons it l ih =>
    simp only [List.foldl_cons, List.filter_cons]
    by_cases hI : isSubstring it.keyword.data dl.data
    · rw [ih]
      by_cases hv : acc.1 < it.value <;>
        simp [Keywords.keywordStep, hI, hv, List.append_assoc]
    · rw [ih]
      simp [Keywords.keywordStep, hI]

/-- The best score accumulated by `findKeywordValue` is the running
maximum of the matched keyword values. -/
theorem keywordFold_score (dl : String) (l : List Keywords.IndustryKeyword)
    (acc : ℤ × String × List String) :
    (l.foldl (Keywords.keywordStep dl) acc).1
      = ((l.filter (fun it => isSubstring it.keyword.data dl.data)).map
          (fun it => it.value)).foldl max acc.1 := by
  induction l generalizing acc with
  | nil => simp
  | cons it l ih =>
    simp only [List.foldl_cons, List.filter_cons]
    by_cases hI : isSubstring it.keyword.data dl.data
    · rw [ih]
      by_cases hv : acc.1 < it.value <;>
        simp [Keywords.keywordStep, hI, hv, List.foldl_cons] <;>
        congr 1 <;> omega
    · rw [ih]
      simp [Keywords.keywordStep, hI]

/-- C9 counterexample: the name `best` exactly equals the single matched
keyword `best` (table value 60), so the claim as stated predicts a +10
bonus (score 70), but the source applies the bonus only for table values
≥ 80 and returns 60. -/
theorem findKeywordValue_bonus_counterexample :
    (Keywords.findKeywordValue "best").score = 60
    ∧ claimedKeywordScore "best" = 70
    ∧ (Keywords.findKeywordValue "best").score ≠ claimedKeywordScore "best" :=
  ⟨by decide, by decide, by decide⟩

/-- C9 amended: the keyword score is the highest value among matching
keyword-table entries (default 20 with no match); when the stripped name
exactly equals a keyword (or its plural) *whose table value is at least
80*, the score receives a +10 bonus capped at 100; and when more than 3
keywords match, the score is reduced by 10 with a floor of 30. -/
theorem findKeywordValue_score_amended (d : String) :
    (Keywords.findKeywordValue d).score = amendedKeywordScore d := by
  unfold Keywords.findKeywordValue amendedKeywordScore
  simp only [keywordFold_score, keywordFold_matched, List.nil_append, List.length_map]

/-! C6: the database comparable matcher. -/

/-- Sorting comparables by descending similarity and truncating yields a
list pairwise descending in similarity. -/
theorem sortBy_take_similarity_desc (l : List ComparableSale) (lim : ℕ) :
    (((sortBy (fun a b : ComparableSale =>
        decide (b.similarity.getD 0 ≤ a.similarity.getD 0)) l).take lim)).Pairwise
      (fun a b => b.similarity.getD 0 ≤ a.similarity.getD 0) := by
  have hp := pairwise_sortBy
    (fun a b : ComparableSale => decide (b.similarity.getD 0 ≤ a.similarity.getD 0))
    (fun a b => by
      rcases le_total (b.similarity.getD 0) (a.similarity.getD 0) with h | h
      · exact Or.inl (by simpa using h)
      · exact Or.inr (by simpa using h))
    (fun a b c hab hbc => by
      simp only [decide_eq_true_eq] at hab hbc ⊢
      exact le_trans hbc hab) l
  exact (hp.sublist (List.take_sublist lim _)).imp (fun h => by simpa using h)

/-- C6: `findDatabaseComparables` returns only candidates whose computed
(rounded) similarity is at least the floor of 40, sorted in descending
order of similarity, and at most the requested count of them. -/
theorem findDatabaseComparables_floor_sorted_truncated
    (targetDomain : String) (lim : ℕ) (w : DbComps.SimilarityFactors)
    (candidates : List DbComps.SaleRow) :
    (∀ c ∈ DbComps.findDatabaseComparables targetDomain lim w candidates,
        40 ≤ c.similarity.getD 0)
    ∧ (DbComps.findDatabaseComparables targetDomain lim w candidates).Pairwise
        (fun a b => b.similarity.getD 0 ≤ a.similarity.getD 0)
    ∧ (DbComps.findDatabaseComparables targetDomain lim w candidates).length ≤ lim := by
  unfold DbComps.findDatabaseComparables
  cases hx : DbComps.extractDomainInfo targetDomain with
  | none => simp
  | some targetInfo =>
    refine ⟨?_, ?_, ?_⟩
    · intro c hc
      have hc2 := List.take_subset _ _ hc
      have hc3 := mem_sortBy _ c _ hc2
      rcases List.mem_filterMap.mp hc3 with ⟨row, _, hrow⟩
      cases hci : DbComps.extractDomainInfo row.domain with
      | none => rw [hci] at hrow; exact absurd hrow (by simp)
      | some candidateInfo =>
        rw [hci] at hrow
        simp only at hrow
        split_ifs at hrow with h40
        cases hrow.symm
        simpa using h40
    · exact sortBy_take_similarity_desc _ lim
    · exact List.length_take_le lim _

/-! C7: the price estimate blend. -/

/-- The statistical median of a price list, as C7's claim reads "the
median of the returned comparables' sold prices": the middle element of
the sorted list for odd length, the mean of the two middle elements for
even length (formalises the claim's wording, for comparison with
`Valuation.compsMedian` from the source). -/
def claimedMedian (prices : List ℚ) : ℚ :=
  let s := sortBy (fun a b : ℚ => decide (a ≤ b)) prices
  if s.length % 2 = 1 then s.getD (s.length / 2) 0
  else (s.getD (s.length / 2 - 1) 0 + s.getD (s.length / 2) 0) / 2

/-- C7 counterexample: for two comparables sold at 100 and 200 and a
final score of 50 (bracket 300-1000, midpoint 650), the claim as stated
predicts `round(0.6 × 150 + 0.4 × 650) = 350`, but the source blends the
element at index `⌊n/2⌋` (200, the upper median) and returns 380. -/
theorem calculatePriceEstimate_median_counterexample :
    let comps : List ComparableSale :=
      [⟨"aaa.com", 100, "2020-01-01", "GoDaddy", some 50⟩,
       ⟨"bbb.com", 200, "2020-02-01", "Sedo", some 50⟩]
    (Valuation.calculatePriceEstimate 50 (Valuation.compsMedian comps)).retail = 380
    ∧ jsRound (0.6 * claimedMedian (comps.map (fun c => c.soldPrice))
        + 0.4 * ((Valuation.mapScoreToPriceBracket 50).bracketMin
          + (Valuation.mapScoreToPriceBracket 50).bracketMax) / 2) = 350
    ∧ (Valuation.calculatePriceEstimate 50 (Valuation.compsMedian comps)).retail
        ≠ (jsRound (0.6 * claimedMedian (comps.map (fun c => c.soldPrice))
            + 0.4 * ((Valuation.mapScoreToPriceBracket 50).bracketMin
              + (Valuation.mapScoreToPriceBracket 50).bracketMax) / 2) : ℚ) := by
  intro comps
  have hmed : Valuation.compsMedian comps = some 200 := by
    simp [Valuation.compsMedian, comps, sortBy, insertBy]
    norm_num
  have hclaimed : claimedMedian (comps.map (fun c => c.soldPrice)) = 150 := by
    simp only [comps, List.map]
    norm_num [claimedMedian, sortBy, insertBy]
  rw [hmed, hclaimed]
  norm_num [Valuation.calculatePriceEstimate, Valuation.mapScoreToPriceBracket,
    truthyQ, jsRound]

/-- C7 amended: with no comparables the retail estimate is the bracket
midpoint and the investor estimate the bracket minimum; with at least
one comparable (all sold prices positive, per the data model), the blend
uses the sold price at index `⌊n/2⌋` of the price-sorted comparables
(the upper median — the true median for odd counts):
`retail = round(0.6·m + 0.4·midpoint)` and `investor = round(retail·0.6)`. -/
theorem calculatePriceEstimate_blend (score : ℚ) (comps : List ComparableSale)
    (hpos : ∀ c ∈ comps, 0 < c.soldPrice) :
    (comps = [] →
      Valuation.calculatePriceEstimate score (Valuation.compsMedian comps)
        = ⟨(Valuation.mapScoreToPriceBracket score).bracketMin,
           ((Valuation.mapScoreToPriceBracket score).bracketMin
             + (Valuation.mapScoreToPriceBracket score).bracketMax) / 2⟩)
    ∧ (comps ≠ [] →
      ∃ m : ℚ, Valuation.compsMedian comps = some m
        ∧ m = ((sortBy (fun a b : ComparableSale => decide (a.soldPrice ≤ b.soldPrice))
            comps).getD (comps.length / 2) ⟨"", 0, "", "", none⟩).soldPrice
        ∧ 0 < m
        ∧ Valuation.calculatePriceEstimate score (Valuation.compsMedian comps)
            = ⟨jsRound ((jsRound (0.6 * m
                  + 0.4 * (((Valuation.mapScoreToPriceBracket score).bracketMin
                    + (Valuation.mapScoreToPriceBracket score).bracketMax) / 2)) : ℚ) * 0.6),
               (jsRound (0.6 * m
                  + 0.4 * (((Valuation.mapScoreToPriceBracket score).bracketMin
                    + (Valuation.mapScoreToPriceBracket score).bracketMax) / 2)) : ℚ)⟩) := by
  constructor
  · intro he
    subst he
    simp [Valuation.compsMedian, Valuation.calculatePriceEstimate, truthyQ]
  · intro hne
    have hlen : 0 < comps.length := List.length_pos.mpr hne
    set m := ((sortBy (fun a b : ComparableSale => decide (a.soldPrice ≤ b.soldPrice))
      comps).getD (comps.length / 2) ⟨"", 0, "", "", none⟩).soldPrice with hmdef
    have hmed : Valuation.compsMedian comps = some m := by
      simp only [Valuation.compsMedian, if_pos hlen]
    have hidx : comps.length / 2
        < (sortBy (fun a b : ComparableSale => decide (a.soldPrice ≤ b.soldPrice))
            comps).length := by
      rw [length_sortBy]
      omega
    have hmem : (sortBy (fun a b : ComparableSale => decide (a.soldPrice ≤ b.soldPrice))
        comps).getD (comps.length / 2) ⟨"", 0, "", "", none⟩
        ∈ sortBy (fun a b : ComparableSale => decide (a.soldPrice ≤ b.soldPrice)) comps := by
      rw [List.getD_eq_getElem _ _ hidx]
      exact List.getElem_mem hidx
    have hm : 0 < m := hpos _ (mem_sortBy _ _ _ hmem)
    refine ⟨m, hmed, rfl, hm, ?_⟩
    rw [hmed]
    have htr : truthyQ (some m) = true := by
      simp [truthyQ, hm.ne.symm]
    simp only [Valuation.calculatePriceEstimate]
    rw [if_pos ⟨htr, by simpa using hm⟩]
    simp only [Option.getD_some]

/-- C7 witness: a single comparable sold at 100 with score 50. -/
theorem calculatePriceEstimate_blend_witness :
    (∃ m : ℚ,
      Valuation.compsMedian [(⟨"one.com", 100, "2020-01-01", "GoDaddy", some 80⟩ : ComparableSale)]
          = some m
        ∧ m = ((sortBy (fun a b : ComparableSale => decide (a.soldPrice ≤ b.soldPrice))
            [(⟨"one.com", 100, "2020-01-01", "GoDaddy", some 80⟩ : ComparableSale)]).getD
              ([(⟨"one.com", 100, "2020-01-01", "GoDaddy", some 80⟩ : ComparableSale)].length / 2)
              ⟨"", 0, "", "", none⟩).soldPrice
        ∧ 0 < m
        ∧ Valuation.calculatePriceEstimate 50
            (Valuation.compsMedian
              [(⟨"one.com", 100, "2020-01-01", "GoDaddy", some 80⟩ : ComparableSale)])
            = ⟨jsRound ((jsRound (0.6 * m
                  + 0.4 * (((Valuation.mapScoreToPriceBracket 50).bracketMin
                    + (Valuation.mapScoreToPriceBracket 50).bracketMax) / 2)) : ℚ) * 0.6),
               (jsRound (0.6 * m
                  + 0.4 * (((Valuation.mapScoreToPriceBracket 50).bracketMin
                    + (Valuation.mapScoreToPriceBracket 50).bracketMax) / 2)) : ℚ)⟩) :=
  (calculatePriceEstimate_blend 50
    [(⟨"one.com", 100, "2020-01-01", "GoDaddy", some 80⟩ : ComparableSale)]
    (by decide)).2 (by decide)

/-! C4: the TLD factor score against the classifier.

Supporting facts about `lowerChar` and `splitOnChar`. -/

theorem lowerChar_idem (c : Char) : lowerChar (lowerChar c) = lowerChar c := by
  unfold lowerChar
  cases hf : LOWER_MAP.find? (fun p => p.1 == c) with
  | none => simp [hf]
  | some p =>
    have hmem : p ∈ LOWER_MAP := List.mem_of_find?_eq_some hf
    have hnone : ∀ q ∈ LOWER_MAP, LOWER_MAP.find? (fun r => r.1 == q.2) = none := by
      decide
    simp [hnone p hmem]

theorem lowerChar_fixed_of_mem_map (c : Char) (l : List Char)
    (h : c ∈ l.map lowerChar) : lowerChar c = c := by
  rcases List.mem_map.mp h with ⟨c0, _, rfl⟩
  exact lowerChar_idem c0

theorem splitOnChar_ne_nil (sep : Char) (l : List Char) : splitOnChar sep l ≠ [] := by
  cases l with
  | nil => simp [splitOnChar]
  | cons c cs =>
    simp only [splitOnChar]
    split_ifs
    · simp
    · cases h : splitOnChar sep cs <;> simp

theorem mem_splitOnChar_subset (sep : Char) (l : List Char) (p : List Char)
    (hp : p ∈ splitOnChar sep l) (c : Char) (hc : c ∈ p) : c ∈ l := by
  induction l generalizing p with
  | nil =>
    simp [splitOnChar] at hp
    subst hp
    simp at hc
  | cons a as ih =>
    simp only [splitOnChar] at hp
    split_ifs at hp with ha
    · rcases List.mem_cons.mp hp with h | h
      · subst h; simp at hc
      · exact List.mem_cons_of_mem a (ih p h hc)
    · cases hsp : splitOnChar sep as with
      | nil => exact absurd hsp (splitOnChar_ne_nil sep as)
      | cons w ws =>
        rw [hsp] at hp
        rcases List.mem_cons.mp hp with h | h
        · subst h
          rcases List.mem_cons.mp hc with h1 | h1
          · simp [h1]
          · exact List.mem_cons_of_mem a (ih w (by simp [hsp]) h1)
        · exact List.mem_cons_of_mem a (ih p (by simp [hsp, h]) hc)

theorem splitOnChar_parts_no_sep (sep : Char) (l : List Char) (p : List Char)
    (hp : p ∈ splitOnChar sep l) : p.contains sep = false := by
  induction l generalizing p with
  | nil => simp [splitOnChar] at hp; subst hp; simp
  | cons a as ih =>
    simp only [splitOnChar] at hp
    split_ifs at hp with ha
    · rcases List.mem_cons.mp hp with h | h
      · subst h; simp
      · exact ih p h
    · cases hsp : splitOnChar sep as with
      | nil => exact absurd hsp (splitOnChar_ne_nil sep as)
      | cons w ws =>
        rw [hsp] at hp
        rcases List.mem_cons.mp hp with h | h
        · subst h
          have hw := ih w (by simp [hsp])
          simp only [List.contains_cons, hw, Bool.or_false]
          simpa using fun he => ha he.symm
        · exact ih p (by simp [hsp, h])

theorem two_le_length_splitOnChar_append (sep : Char) (l m : List Char) :
    2 ≤ (splitOnChar sep (l ++ sep :: m)).length := by
  induction l with
  | nil =>
    simp only [List.nil_append, splitOnChar, if_pos rfl]
    have h := splitOnChar_ne_nil sep m
    cases hs : splitOnChar sep m with
    | nil => exact absurd hs h
    | cons w ws => simp
  | cons a as ih =>
    by_cases ha : a = sep
    · rw [show splitOnChar sep ((a :: as) ++ sep :: m)
          = [] :: splitOnChar sep (as ++ sep :: m) from by simp [splitOnChar, ha]]
      simp only [List.length_cons]
      omega
    · cases hs : splitOnChar sep (as ++ sep :: m) with
      | nil => exact absurd hs (splitOnChar_ne_nil sep _)
      | cons w ws =>
        rw [show splitOnChar sep ((a :: as) ++ sep :: m)
            = (a :: w) :: ws from by simp [splitOnChar, ha, hs]]
        rw [hs] at ih
        simp only [List.length_cons] at ih ⊢
        omega

/-- The final split component of `l ++ sep :: m` is the final split
component of `m`. -/
theorem splitOnChar_append_sep_getLastD (sep : Char) (l m : List Char) :
    (splitOnChar sep (l ++ sep :: m)).getLastD [] = (splitOnChar sep m).getLastD [] := by
  induction l with
  | nil =>
    simp only [List.nil_append, splitOnChar, if_pos rfl]
    cases hs : splitOnChar sep m with
    | nil => exact absurd hs (splitOnChar_ne_nil sep m)
    | cons w ws => simp [List.getLastD_cons]
  | cons a as ih =>
    by_cases ha : a = sep
    · rw [show splitOnChar sep ((a :: as) ++ sep :: m)
          = [] :: splitOnChar sep (as ++ sep :: m) from by simp [splitOnChar, ha]]
      cases hs : splitOnChar sep (as ++ sep :: m) with
      | nil => exact absurd hs (splitOnChar_ne_nil sep _)
      | cons w ws =>
        rw [hs] at ih
        simpa [List.getLastD_cons] using ih
    · cases hs : splitOnChar sep (as ++ sep :: m) with
      | nil => exact absurd hs (splitOnChar_ne_nil sep _)
      | cons w ws =>
        rw [show splitOnChar sep ((a :: as) ++ sep :: m)
            = (a :: w) :: ws from by simp [splitOnChar, ha, hs]]
        have h2 := two_le_length_splitOnChar_append sep as m
        rw [hs] at h2 ih
        cases ws with
        | nil => simp at h2
        | cons w2 ws2 =>
          simpa [List.getLastD_cons] using ih

theorem mem_getLastD_of_ne_nil (l : List α) (d : α) (h : l ≠ []) :
    l.getLastD d ∈ l := by
  cases l with
  | nil => exact absurd rfl h
  | cons a as =>
    rw [List.getLastD_cons]
    exact List.getLastD_mem_cons as a

set_option maxRecDepth 4000 in
/-- Every entry of the multi-level TLD set contains a dot. -/
theorem multi_tlds_have_dot :
    ∀ s ∈ TldUtils.MULTI_LEVEL_TLDS, s.data.contains '.' = true := by decide

/-- The final label of a domain is already lower-case. -/
theorem lastLabel_lower_fixed (d : String) :
    lowerStr ⟨Valuation.lastLabel d⟩ = ⟨Valuation.lastLabel d⟩ := by
  have hmem : Valuation.lastLabel d ∈ splitOnChar '.' (lowerStr d).data :=
    mem_getLastD_of_ne_nil _ _ (splitOnChar_ne_nil _ _)
  have hfix : ∀ c ∈ Valuation.lastLabel d, lowerChar c = c := by
    intro c hc
    apply lowerChar_fixed_of_mem_map c d.data
    exact mem_splitOnChar_subset '.' (lowerStr d).data _ hmem c hc
  show (⟨(Valuation.lastLabel d).map lowerChar⟩ : String) = ⟨Valuation.lastLabel d⟩
  congr 1
  simpa using List.map_congr_left hfix

/-- The final label of a domain never is a multi-level TLD. -/
theorem lastLabel_not_multi (d : String) :
    TldUtils.MULTI_LEVEL_TLDS.contains (⟨Valuation.lastLabel d⟩ : String) = false := by
  by_contra hc
  rw [Bool.not_eq_false] at hc
  have hmem : (⟨Valuation.lastLabel d⟩ : String) ∈ TldUtils.MULTI_LEVEL_TLDS := by
    simpa using hc
  have hdot := multi_tlds_have_dot _ hmem
  have hll : Valuation.lastLabel d ∈ splitOnChar '.' (lowerStr d).data :=
    mem_getLastD_of_ne_nil _ _ (splitOnChar_ne_nil _ _)
  have hnd := splitOnChar_parts_no_sep '.' (lowerStr d).data _ hll
  rw [show (⟨Valuation.lastLabel d⟩ : String).data = Valuation.lastLabel d from rfl] at hdot
  rw [hnd] at hdot
  exact absurd hdot (by simp)

/-- The `scoreTLD` of `src/src/lib/valuation.ts` agrees with the
classifier's quality score applied to the final label. -/
theorem scoreTLD_eq_classifier_lastLabel (d : String) (c : Option String) :
    Valuation.scoreTLD d c = TldUtils.getTLDScore ⟨Valuation.lastLabel d⟩ c := by
  unfold Valuation.scoreTLD TldUtils.getTLDScore
  simp only [lastLabel_lower_fixed d, lastLabel_not_multi d, Bool.false_eq_true, if_false]

/-- For any name `x`, `x ++ ".com"` has final label `com`. -/
theorem lastLabel_append_com (x : String) :
    Valuation.lastLabel (x ++ ".com") = ['c', 'o', 'm'] := by
  unfold Valuation.lastLabel
  have hdata : (lowerStr (x ++ ".com")).data
      = (lowerStr x).data ++ '.' :: ['c', 'o', 'm'] := by
    show ((x ++ ".com").data.map lowerChar) = (x.data.map lowerChar) ++ '.' :: ['c', 'o', 'm']
    rw [String.data_append, List.map_append]
    rfl
  rw [hdata, splitOnChar_append_sep_getLastD]
  rfl

theorem scoreTLD_append_com (x : String) (c : Option String) :
    Valuation.scoreTLD (x ++ ".com") c = 100 := by
  unfold Valuation.scoreTLD
  rw [lastLabel_append_com]
  rfl

/-- C4 counterexample: on `example.co.uk` the `scoreTLD` of
`src/src/lib/valuation.ts` scores the final label `uk` only (50), while
the classifier extracts `co.uk` and scores 85, so the claimed equality
fails on multi-level TLDs. -/
theorem scoreTLD_classifier_counterexample :
    Valuation.scoreTLD "example.co.uk" none = 50
    ∧ TldUtils.getTLDScore (TldUtils.extractTLD "example.co.uk") none = 85
    ∧ Valuation.scoreTLD "example.co.uk" none
        ≠ TldUtils.getTLDScore (TldUtils.extractTLD "example.co.uk") none :=
  ⟨by decide, by decide, by decide⟩

/-- C4 amended: `scoreTLD` equals the classifier's quality score applied
to the *final label* of the domain (not to the classifier-extracted TLD,
from which it diverges on multi-level TLDs such as `co.uk`); in
particular `scoreTLD(x + ".com") = 100` for every name `x`. -/
theorem scoreTLD_scores_lastLabel (d : String) (c : Option String) (x : String) :
    Valuation.scoreTLD d c = TldUtils.getTLDScore ⟨Valuation.lastLabel d⟩ c
    ∧ Valuation.scoreTLD (x ++ ".com") c = 100 :=
  ⟨scoreTLD_eq_classifier_lastLabel d c, scoreTLD_append_com x c⟩

/-! C5: the behaviour of `extractTLD`. -/

theorem findSome?_range'_eq_none (f : ℕ → Option β) (s n : ℕ)
    (h : ∀ i, s ≤ i → i < s + n → f i = none) :
    (List.range' s n).findSome? f = none := by
  induction n generalizing s with
  | zero => rfl
  | succ n ih =>
    show List.findSome? f (s :: List.range' (s + 1) n) = none
    rw [List.findSome?_cons, h s le_rfl (by omega)]
    exact ih (s + 1) (fun i h1 h2 => h i (by omega) (by omega))

theorem findSome?_range'_eq_of_min (f : ℕ → Option β) (s n i : ℕ)
    (h1 : s ≤ i) (h2 : i < s + n) (hi : (f i).isSome)
    (hmin : ∀ j, s ≤ j → j < i → f j = none) :
    (List.range' s n).findSome? f = f i := by
  induction n generalizing s with
  | zero => omega
  | succ n ih =>
    show List.findSome? f (s :: List.range' (s + 1) n) = f i
    rw [List.findSome?_cons]
    rcases eq_or_lt_of_le h1 with heq | hlt
    · subst heq
      cases hfi : f s with
      | none => rw [hfi] at hi; simp at hi
      | some b => simp [hfi]
    · rw [hmin s le_rfl hlt]
      exact ih (s + 1) (by omega) (by omega) (fun j hj1 hj2 => hmin j (by omega) hj2)

/-- The split components `extractTLD` works on. -/
def partsOf (d : String) : List (List Char) :=
  splitOnChar '.' (lowerStr (trimStr d)).data

/-- The suffix candidate scanned by `extractTLD` at start index `i`. -/
def multiCandidate (d : String) (i : ℕ) : String :=
  ⟨joinWith '.' ((partsOf d).drop i)⟩

/-- Index `i` lies in the window scanned by `extractTLD`: it cuts off at
most the 3 trailing labels and never the whole domain. -/
def validIdx (d : String) (i : ℕ) : Prop :=
  max 1 ((partsOf d).length - 3) ≤ i ∧ i < (partsOf d).length - 1

/-- The candidate at `i` is a known multi-level TLD. -/
def isMultiAt (d : String) (i : ℕ) : Prop :=
  TldUtils.MULTI_LEVEL_TLDS.contains (multiCandidate d i) = true

/-- The Option-valued scan body of `extractTLD`. -/
theorem extractTLD_eq_scan (d : String) :
    TldUtils.extractTLD d
      = (if (partsOf d).length < 2 then ""
         else
           match (List.range' (max 1 ((partsOf d).length - 3))
               ((partsOf d).length - 1 - max 1 ((partsOf d).length - 3))).findSome?
               (fun i =>
                 if TldUtils.MULTI_LEVEL_TLDS.contains (multiCandidate d i)
                 then some (multiCandidate d i) else none) with
           | some t => t
           | none => ⟨(partsOf d).getLastD []⟩) := rfl

/-- C5 counterexample: (a) `war.net.id` — the whole domain is itself in
the multi-level set and is the longest suffix within the claimed window,
yet `extractTLD` never considers the full domain and returns `net.id`;
(b) `a.` splits into two labels (`a` and the empty final label) yet
`extractTLD` returns the empty string, against "empty exactly when fewer
than two dot-separated labels". -/
theorem extractTLD_claim_counterexample :
    (TldUtils.extractTLD "war.net.id" = "net.id"
      ∧ TldUtils.MULTI_LEVEL_TLDS.contains "war.net.id" = true
      ∧ TldUtils.extractTLD "war.net.id" ≠ "war.net.id")
    ∧ (TldUtils.extractTLD "a." = ""
      ∧ ¬ ((splitOnChar '.' (lowerStr (trimStr "a.")).data).length < 2)) :=
  ⟨⟨by decide, by decide, by decide⟩, ⟨by decide, by decide⟩⟩

/-- C5 amended: `extractTLD` splits on `.` and (a) returns the empty
string when the input has fewer than two split components; (b) over the
scan window — suffixes of at most 3 trailing labels, never the whole
domain — returns the longest one belonging to the multi-level TLD set;
(c) with no such match returns the final label; and (d) its result is
empty exactly when there are fewer than two split components *or* no
multi-level match exists and the final label is empty (a trailing dot). -/
theorem extractTLD_characterization (d : String) :
    ((partsOf d).length < 2 → TldUtils.extractTLD d = "")
    ∧ (∀ i, validIdx d i → isMultiAt d i →
        (∀ j, validIdx d j → j < i → ¬ isMultiAt d j) →
        TldUtils.extractTLD d = multiCandidate d i)
    ∧ (2 ≤ (partsOf d).length → (∀ i, validIdx d i → ¬ isMultiAt d i) →
        TldUtils.extractTLD d = ⟨(partsOf d).getLastD []⟩)
    ∧ (TldUtils.extractTLD d = ""
        ↔ ((partsOf d).length < 2
            ∨ ((∀ i, validIdx d i → ¬ isMultiAt d i)
                ∧ (partsOf d).getLastD [] = []))) := by
  have hscan := extractTLD_eq_scan d
  set n := (partsOf d).length with hn
  set s := max 1 (n - 3) with hs
  set f : ℕ → Option String := fun i =>
    if TldUtils.MULTI_LEVEL_TLDS.contains (multiCandidate d i)
    then some (multiCandidate d i) else none with hf
  refine ⟨?_, ?_, ?_, ?_⟩
  · intro hlt
    rw [hscan, if_pos hlt]
  · intro i hvi hmi hminp
    have hn2 : ¬ (n < 2) := by
      rcases hvi with ⟨hv1, hv2⟩
      omega
    have hfi : (f i).isSome := by
      simp [hf, isMultiAt.eq_1 d i] at hmi ⊢
      simp [hmi]
    have heq := findSome?_range'_eq_of_min f s (n - 1 - s) i hvi.1
      (by rcases hvi with ⟨hv1, hv2⟩; omega) hfi
      (fun j hj1 hj2 => by
        have hvj : validIdx d j := ⟨hj1, by rcases hvi with ⟨hv1, hv2⟩; omega⟩
        have := hminp j hvj hj2
        simp [hf, isMultiAt] at this ⊢
        simp [this])
    rw [hscan, if_neg hn2]
    rw [show (List.range' s (n - 1 - s)).findSome?
        (fun i => if TldUtils.MULTI_LEVEL_TLDS.contains (multiCandidate d i)
          then some (multiCandidate d i) else none) = f i from heq]
    have : f i = some (multiCandidate d i) := by
      simp [hf, isMultiAt] at hmi ⊢
      simp [hmi]
    rw [this]
  · intro hge hnone
    have heq := findSome?_range'_eq_none f s (n - 1 - s)
      (fun i h1 h2 => by
        have hvi : validIdx d i := ⟨h1, by omega⟩
        have := hnone i hvi
        simp [hf, isMultiAt] at this ⊢
        simp [this])
    rw [hscan, if_neg (by omega)]
    rw [show (List.range' s (n - 1 - s)).findSome?
        (fun i => if TldUtils.MULTI_LEVEL_TLDS.contains (multiCandidate d i)
          then some (multiCandidate d i) else none) = none from heq]
  · by_cases hlt : n < 2
    · rw [hscan, if_pos hlt]
      simp [hlt]
    · rw [hscan, if_neg hlt]
      cases hsc : (List.range' s (n - 1 - s)).findSome?
          (fun i => if TldUtils.MULTI_LEVEL_TLDS.contains (multiCandidate d i)
            then some (multiCandidate d i) else none) with
      | some t =>
        rcases List.exists_of_findSome?_eq_some hsc with ⟨i, hmem, hfi⟩
        have hii : s ≤ i ∧ i < s + (n - 1 - s) := by
          have := List.mem_range'_1.mp hmem
          exact this
        have hmulti : TldUtils.MULTI_LEVEL_TLDS.contains (multiCandidate d i) = true
            ∧ t = multiCandidate d i := by
          by_cases hc : TldUtils.MULTI_LEVEL_TLDS.contains (multiCandidate d i)
          · rw [if_pos hc] at hfi
            exact ⟨hc, (Option.some_inj.mp hfi).symm⟩
          · rw [if_neg hc] at hfi
            exact absurd hfi (by simp)
        have htdot : t.data.contains '.' = true := by
          rw [hmulti.2]
          exact multi_tlds_have_dot _ (by simpa using hmulti.1)
        have htne : t ≠ "" := by
          intro he
          rw [he] at htdot
          simp [String.data] at htdot
        constructor
        · intro he
          exact absurd he htne
        · intro hr
          rcases hr with hr | hr
          · omega
          · exact absurd (hmulti.1) (by
              have := hr.1 i ⟨hii.1, by omega⟩
              simpa [isMultiAt] using this)
      | none =>
        have hall : ∀ i, validIdx d i → ¬ isMultiAt d i := by
          intro i hvi
          have hmem : i ∈ List.range' s (n - 1 - s) := by
            apply List.mem_range'_1.mpr
            rcases hvi with ⟨hv1, hv2⟩
            exact ⟨hv1, by omega⟩
          have := List.findSome?_eq_none_iff.mp hsc i hmem
          intro hmi
          simp [isMultiAt] at hmi
          rw [if_pos (by simpa using hmi)] at this
          exact absurd this (by simp)
        constructor
        · intro he
          refine Or.inr ⟨hall, ?_⟩
          have he2 : (⟨(partsOf d).getLastD []⟩ : String) = "" := he
          simpa using congrArg String.data he2
        · intro hr
          rcases hr with hr | hr
          · omega
          · show (⟨(partsOf d).getLastD []⟩ : String) = ""
            rw [hr.2]

instance (d : String) (i : ℕ) : Decidable (validIdx d i) := by
  unfold validIdx; infer_instance

instance (d : String) (i : ℕ) : Decidable (isMultiAt d i) := by
  unfold isMultiAt; infer_instance

/-- C5 witness: on `example.co.uk` the scan window is the single index
1, whose candidate `co.uk` is in the multi-level set, so `extractTLD`
returns it. -/
theorem extractTLD_characterization_witness :
    TldUtils.extractTLD "example.co.uk" = multiCandidate "example.co.uk" 1 :=
  (extractTLD_characterization "example.co.uk").2.1 1 (by decide) (by decide)
    (fun j hv hlt => absurd hv.1 (by omega))

/-! C3: score ranges.

Per-factor range lemmas, then the range property of a full evaluation. -/

theorem scoreLengthAndSimplicity_range (d : String) :
    0 ≤ Valuation.scoreLengthAndSimplicity d
    ∧ Valuation.scoreLengthAndSimplicity d ≤ 100 := by
  simp only [Valuation.scoreLengthAndSimplicity]
  split_ifs <;> exact ⟨le_max_left _ _, max_le (by norm_num) (by omega)⟩

theorem foldl_max_bounds (l : List ℤ) (a lo hi : ℤ) (ha1 : lo ≤ a) (ha2 : a ≤ hi)
    (hl : ∀ x ∈ l, x ≤ hi) : lo ≤ l.foldl max a ∧ l.foldl max a ≤ hi := by
  induction l generalizing a with
  | nil => exact ⟨ha1, ha2⟩
  | cons x xs ih =>
    simp only [List.foldl_cons]
    exact ih (max a x) (le_trans ha1 (le_max_left a x))
      (max_le ha2 (hl x (by simp))) (fun y hy => hl y (by simp [hy]))

theorem industryKeywords_values_le : ∀ it ∈ Keywords.industryKeywords, it.value ≤ 95 := by
  decide

theorem findKeywordValue_score_range (d : String) :
    0 ≤ (Keywords.findKeywordValue d).score
    ∧ (Keywords.findKeywordValue d).score ≤ 100 := by
  unfold Keywords.findKeywordValue
  simp only [keywordFold_score, List.nil_append]
  have hb := foldl_max_bounds
    ((Keywords.industryKeywords.filter (fun it =>
      isSubstring it.keyword.data (stripTldAlts SHORT_TLD_ALTS (lowerStr d)).data)).map
        (fun it => it.value))
    20 20 95 le_rfl (by norm_num)
    (fun x hx => by
      rcases List.mem_map.mp hx with ⟨it, hit, rfl⟩
      exact industryKeywords_values_le it (List.mem_of_mem_filter hit))
  obtain ⟨hb1, hb2⟩ := hb
  cases hex : Keywords.industryKeywords.find? (fun it =>
      stripTldAlts SHORT_TLD_ALTS (lowerStr d) = it.keyword
      || stripTldAlts SHORT_TLD_ALTS (lowerStr d) = it.keyword ++ "s") with
  | none =>
    dsimp only
    split_ifs <;> omega
  | some it =>
    dsimp only
    split_ifs <;> omega

theorem scoreTLD_range (d : String) (c : Option String) :
    0 ≤ Valuation.scoreTLD d c ∧ Valuation.scoreTLD d c ≤ 100 := by
  simp only [Valuation.scoreTLD]
  rcases c with _ | c <;> split_ifs <;> try norm_num
  all_goals split_ifs <;> norm_num

theorem scoreIndustryRelevance_range (industry : String) (kws : List String) :
    0 ≤ Valuation.scoreIndustryRelevance industry kws
    ∧ Valuation.scoreIndustryRelevance industry kws ≤ 100 := by
  simp only [Valuation.scoreIndustryRelevance]
  split_ifs <;> norm_num

theorem scoreComparableSales_range (comps : List ComparableSale) :
    0 ≤ Valuation.scoreComparableSales comps
    ∧ Valuation.scoreComparableSales comps ≤ 100 := by
  simp only [Valuation.scoreComparableSales]
  split_ifs <;> norm_num

theorem calculateAgeScore_range (a : ℚ) :
    0 ≤ Valuation.calculateAgeScore a ∧ Valuation.calculateAgeScore a ≤ 100 := by
  simp only [Valuation.calculateAgeScore]
  split_ifs <;> norm_num

theorem scoreDomainAge_range (p : Option ℚ) (sk : Bool) (f : Option ℚ) :
    0 ≤ Valuation.scoreDomainAge p sk f ∧ Valuation.scoreDomainAge p sk f ≤ 100 := by
  simp only [Valuation.scoreDomainAge]
  split_ifs
  · exact calculateAgeScore_range _
  · norm_num
  · cases f with
    | none => norm_num
    | some a => exact calculateAgeScore_range a

theorem calculateTrafficScore_range (m : ℚ) :
    0 ≤ Valuation.calculateTrafficScore m ∧ Valuation.calculateTrafficScore m ≤ 100 := by
  simp only [Valuation.calculateTrafficScore]
  split_ifs <;> norm_num

theorem scoreDomainTraffic_range (p ai : Option ℚ) :
    0 ≤ Valuation.scoreDomainTraffic p ai ∧ Valuation.scoreDomainTraffic p ai ≤ 100 := by
  simp only [Valuation.scoreDomainTraffic]
  split_ifs
  · exact calculateTrafficScore_range _
  · exact calculateTrafficScore_range _

theorem scoreLiquidity_range (d : String) :
    0 ≤ Valuation.scoreLiquidity d ∧ Valuation.scoreLiquidity d ≤ 100 := by
  simp only [Valuation.scoreLiquidity]
  split_ifs <;> norm_num

theorem analyzeBrandabilityScore_range (ai : Option ℚ) (fb : ℤ) :
    0 ≤ analyzeBrandabilityScore ai fb ∧ analyzeBrandabilityScore ai fb ≤ 100 := by
  unfold analyzeBrandabilityScore
  cases ai with
  | some r =>
    refine ⟨le_max_left _ _, max_le (by norm_num) ?_⟩
    exact min_le_left _ _
  | none =>
    refine ⟨le_trans (by norm_num) (le_max_left _ _), max_le (by norm_num) ?_⟩
    exact le_trans (min_le_left _ _) (by norm_num)

theorem assessStaticLegalRisk_ranges (name : String) :
    0 ≤ (Valuation.assessStaticLegalRisk name).multiplier
    ∧ 0 ≤ (Valuation.assessStaticLegalRisk name).score
    ∧ (Valuation.assessStaticLegalRisk name).score ≤ 100 := by
  unfold Valuation.assessStaticLegalRisk
  split_ifs <;> norm_num

theorem assessLegalRisk_ranges (d : String) (ai : Option AiTrademark) :
    0 ≤ (Valuation.assessLegalRisk d ai).multiplier
    ∧ 0 ≤ (Valuation.assessLegalRisk d ai).score
    ∧ (Valuation.assessLegalRisk d ai).score ≤ 100 := by
  unfold Valuation.assessLegalRisk
  cases ai with
  | none => exact assessStaticLegalRisk_ranges _
  | some r =>
    by_cases hc : r.hasConflict
    · simp only [hc, if_true]
      split_ifs <;> norm_num
    · simp only [hc, if_false]
      exact assessStaticLegalRisk_ranges _

theorem availabilityMultiplier_nonneg (opts : EvalOptions) (o : EvalOracles) :
    0 ≤ Valuation.availabilityMultiplier opts o := by
  unfold Valuation.availabilityMultiplier
  split_ifs <;> norm_num

theorem availabilityScore_range (opts : EvalOptions) (o : EvalOracles) :
    0 ≤ Valuation.availabilityScore opts o ∧ Valuation.availabilityScore opts o ≤ 100 := by
  unfold Valuation.availabilityScore
  split_ifs <;> norm_num

theorem scoreKeywords_score_range (d : String) :
    0 ≤ (Valuation.scoreKeywords d).score ∧ (Valuation.scoreKeywords d).score ≤ 100 :=
  findKeywordValue_score_range d

/-- C3: for every evaluation with non-negative weights, the final score
is ≥ 0 and every factor score in the breakdown (length, keywords, tld,
brandability, industry, comps, age, traffic, liquidity, legal,
availability) lies in `[0, 100]`; in particular
`scoreLengthAndSimplicity` never returns a negative value. -/
theorem finalScore_nonneg_breakdown_in_range (d : String) (opts : EvalOptions)
    (w : FactorWeights) (o : EvalOracles)
    (hw : 0 ≤ w.length ∧ 0 ≤ w.keywords ∧ 0 ≤ w.tld ∧ 0 ≤ w.brandability
      ∧ 0 ≤ w.industry ∧ 0 ≤ w.comps ∧ 0 ≤ w.age ∧ 0 ≤ w.traffic ∧ 0 ≤ w.liquidity) :
    0 ≤ Valuation.finalScore d opts w o
    ∧ (∀ fb ∈ Valuation.breakdown d opts w o, 0 ≤ fb.score ∧ fb.score ≤ 100)
    ∧ (∀ s, 0 ≤ Valuation.scoreLengthAndSimplicity s) := by
  obtain ⟨hw1, hw2, hw3, hw4, hw5, hw6, hw7, hw8, hw9⟩ := hw
  refine ⟨?_, ?_, fun s => (scoreLengthAndSimplicity_range s).1⟩
  · unfold Valuation.finalScore
    refine mul_nonneg (mul_nonneg ?_ (assessLegalRisk_ranges d o.aiLegal).1)
      (availabilityMultiplier_nonneg opts o)
    simp only [Valuation.rawScore, Valuation.breakdown, List.map_cons, List.map_nil,
      List.sum_cons, List.sum_nil, add_zero]
    repeat' apply add_nonneg
    · exact mul_nonneg hw1 (by exact_mod_cast (scoreLengthAndSimplicity_range d).1)
    · exact mul_nonneg hw2 (by exact_mod_cast (scoreKeywords_score_range d).1)
    · exact mul_nonneg hw3 (by exact_mod_cast (scoreTLD_range d opts.country).1)
    · exact mul_nonneg hw4
        (by exact_mod_cast (analyzeBrandabilityScore_range o.brandAi o.brandFallbackRaw).1)
    · exact mul_nonneg hw5 (by exact_mod_cast (scoreIndustryRelevance_range _ _).1)
    · exact mul_nonneg hw6 (by exact_mod_cast (scoreComparableSales_range _).1)
    · exact mul_nonneg hw7 (by exact_mod_cast (scoreDomainAge_range _ _ _).1)
    · exact mul_nonneg hw8 (by exact_mod_cast (scoreDomainTraffic_range _ _).1)
    · exact mul_nonneg hw9 (by exact_mod_cast (scoreLiquidity_range d).1)
  · intro fb hfb
    simp only [Valuation.breakdown, List.mem_cons, List.not_mem_nil, or_false] at hfb
    rcases hfb with rfl | rfl | rfl | rfl | rfl | rfl | rfl | rfl | rfl | rfl | rfl
    · exact scoreLengthAndSimplicity_range d
    · exact scoreKeywords_score_range d
    · exact scoreTLD_range d opts.country
    · exact analyzeBrandabilityScore_range o.brandAi o.brandFallbackRaw
    · exact scoreIndustryRelevance_range _ _
    · exact scoreComparableSales_range _
    · exact scoreDomainAge_range _ _ _
    · exact scoreDomainTraffic_range _ _
    · exact scoreLiquidity_range d
    · exact ⟨(assessLegalRisk_ranges d o.aiLegal).2.1,
        (assessLegalRisk_ranges d o.aiLegal).2.2⟩
    · exact availabilityScore_range opts o

/-- C3 witness: a concrete evaluation of `example.com` with the default
weights. -/
theorem finalScore_nonneg_breakdown_in_range_witness :
    0 ≤ Valuation.finalScore "example.com" ⟨none, none, true, none, false⟩ DEFAULT_WEIGHTS
        ⟨⟨true, some 3⟩, [], [], some 70, 0, none, some 500, none⟩
    ∧ (∀ fb ∈ Valuation.breakdown "example.com" ⟨none, none, true, none, false⟩
        DEFAULT_WEIGHTS ⟨⟨true, some 3⟩, [], [], some 70, 0, none, some 500, none⟩,
        0 ≤ fb.score ∧ fb.score ≤ 100)
    ∧ (∀ s, 0 ≤ Valuation.scoreLengthAndSimplicity s) :=
  finalScore_nonneg_breakdown_in_range "example.com" ⟨none, none, true, none, false⟩
    DEFAULT_WEIGHTS ⟨⟨true, some 3⟩, [], [], some 70, 0, none, some 500, none⟩
    (by norm_num [DEFAULT_WEIGHTS])

/-! C1: the structure of the premium revision's final score. -/

/-- Case analysis of `premiumMultiplier`: 1.3 for all-letter 3-character
`.com` names, 1.15 for 4 characters, exceeding 1 exactly there, and 1
otherwise. -/
theorem premiumMultiplier_spec (d : String) :
    (1 < ValuationPremium.premiumMultiplier d
      ↔ TldUtils.extractTLD d = "com"
        ∧ isLowerAlpha (TldUtils.extractDomainName d).data = true
        ∧ ((TldUtils.extractDomainName d).data.length = 3
          ∨ (TldUtils.extractDomainName d).data.length = 4))
    ∧ (TldUtils.extractTLD d = "com" → (TldUtils.extractDomainName d).data.length = 3
        → isLowerAlpha (TldUtils.extractDomainName d).data = true
        → ValuationPremium.premiumMultiplier d = 1.3)
    ∧ (TldUtils.extractTLD d = "com" → (TldUtils.extractDomainName d).data.length = 4
        → isLowerAlpha (TldUtils.extractDomainName d).data = true
        → ValuationPremium.premiumMultiplier d = 1.15)
    ∧ (¬ (TldUtils.extractTLD d = "com"
          ∧ isLowerAlpha (TldUtils.extractDomainName d).data = true
          ∧ ((TldUtils.extractDomainName d).data.length = 3
            ∨ (TldUtils.extractDomainName d).data.length = 4))
        → ValuationPremium.premiumMultiplier d = 1) := by
  simp only [ValuationPremium.premiumMultiplier]
  split_ifs with h1 h2
  · refine ⟨⟨fun _ => ⟨h1.1, h1.2.2, Or.inl h1.2.1⟩, fun _ => by norm_num⟩,
      fun _ _ _ => rfl, fun _ hc _ => ?_, fun hn => absurd ⟨h1.1, h1.2.2, Or.inl h1.2.1⟩ hn⟩
    have h3 := h1.2.1
    omega
  · refine ⟨⟨fun _ => ⟨h2.1, h2.2.2, Or.inr h2.2.1⟩, fun _ => by norm_num⟩,
      fun hcom h3 halpha => absurd ⟨hcom, h3, halpha⟩ h1,
      fun _ _ _ => rfl, fun hn => absurd ⟨h2.1, h2.2.2, Or.inr h2.2.1⟩ hn⟩
  · refine ⟨⟨fun hlt => absurd hlt (by norm_num), fun hc => ?_⟩,
      fun hcom h3 halpha => absurd ⟨hcom, h3, halpha⟩ h1,
      fun hcom h4 halpha => absurd ⟨hcom, h4, halpha⟩ h2,
      fun _ => by norm_num⟩
    rcases hc.2.2 with h3 | h4
    · exact absurd ⟨hc.1, h3, hc.2.1⟩ h1
    · exact absurd ⟨hc.1, h4, hc.2.1⟩ h2

/-- C1: the premium revision's final score equals the weighted sum over
the nine weighted factors (with the premium-short adjusted weights),
multiplied by the legal multiplier, the availability multiplier and the
premium multiplier; the premium multiplier exceeds 1 only for all-letter
3- or 4-character names under `.com` (1.3 and 1.15 respectively) and is
1 otherwise. -/
theorem finalScore_premium_structure (d : String) (opts : EvalOptions)
    (w : FactorWeights) (o : EvalOracles) :
    (ValuationPremium.finalScore d opts w o
      = ((ValuationPremium.adjustedWeights d w).length
            * (ValuationPremium.scoreLengthAndSimplicity d : ℚ)
        + (ValuationPremium.adjustedWeights d w).keywords
            * ((Keywords.findKeywordValue d).score : ℚ)
        + (ValuationPremium.adjustedWeights d w).tld
            * (ValuationPremium.scoreTLD d opts.country : ℚ)
        + (ValuationPremium.adjustedWeights d w).brandability
            * (analyzeBrandabilityScore o.brandAi o.brandFallbackRaw : ℚ)
        + (ValuationPremium.adjustedWeights d w).industry
            * (Valuation.scoreIndustryRelevance (Keywords.findKeywordValue d).industry
                (Keywords.findKeywordValue d).matchedKeywords : ℚ)
        + (ValuationPremium.adjustedWeights d w).comps
            * (Valuation.scoreComparableSales (Valuation.comparablesOf opts o) : ℚ)
        + (ValuationPremium.adjustedWeights d w).age
            * (Valuation.scoreDomainAge
                (orTruthy (Valuation.whoisDataOf opts o).ageInYears opts.domainAge)
                opts.skipWhois o.fetchedAge : ℚ)
        + (ValuationPremium.adjustedWeights d w).traffic
            * (Valuation.scoreDomainTraffic opts.userTraffic o.aiTraffic : ℚ)
        + (ValuationPremium.adjustedWeights d w).liquidity
            * (ValuationPremium.scoreLiquidity d : ℚ))
        * (Valuation.assessLegalRisk d o.aiLegal).multiplier
        * Valuation.availabilityMultiplier opts o
        * ValuationPremium.premiumMultiplier d)
    ∧ (1 < ValuationPremium.premiumMultiplier d
      ↔ TldUtils.extractTLD d = "com"
        ∧ isLowerAlpha (TldUtils.extractDomainName d).data = true
        ∧ ((TldUtils.extractDomainName d).data.length = 3
          ∨ (TldUtils.extractDomainName d).data.length = 4))
    ∧ (TldUtils.extractTLD d = "com" → (TldUtils.extractDomainName d).data.length = 3
        → isLowerAlpha (TldUtils.extractDomainName d).data = true
        → ValuationPremium.premiumMultiplier d = 1.3)
    ∧ (¬ (TldUtils.extractTLD d = "com"
          ∧ isLowerAlpha (TldUtils.extractDomainName d).data = true
          ∧ ((TldUtils.extractDomainName d).data.length = 3
            ∨ (TldUtils.extractDomainName d).data.length = 4))
        → ValuationPremium.premiumMultiplier d = 1) := by
  have hs := premiumMultiplier_spec d
  refine ⟨?_, hs.1, hs.2.1, hs.2.2.2⟩
  simp only [ValuationPremium.finalScore, ValuationPremium.rawScore,
    ValuationPremium.breakdown, List.map_cons, List.map_nil, List.sum_cons,
    List.sum_nil, add_zero]
  ring

/-- C1 witness: `abc.com` is an all-letter 3-character `.com` name, so
its premium multiplier is 1.3 and exceeds 1. -/
theorem finalScore_premium_structure_witness :
    ValuationPremium.premiumMultiplier "abc.com" = 1.3
    ∧ 1 < ValuationPremium.premiumMultiplier "abc.com" :=
  ⟨(finalScore_premium_structure "abc.com" ⟨none, none, true, none, false⟩
      DEFAULT_WEIGHTS ⟨⟨true, some 3⟩, [], [], some 70, 0, none, some 500, none⟩).2.2.1
      (by decide) (by decide) (by decide),
   (finalScore_premium_structure "abc.com" ⟨none, none, true, none, false⟩
      DEFAULT_WEIGHTS ⟨⟨true, some 3⟩, [], [], some 70, 0, none, some 500, none⟩).2.1.mpr
      ⟨by decide, by decide, Or.inl (by decide)⟩⟩

end Domainosaur

